import Mathlib

/-!
Verification of the persistence and data-bootstrap core of the
space-utilisation-analytics repository, a shallow embedding of
backend/repository/data_repository.py (class DataRepository) together
with the configuration surface of backend/utils/config.py.

Modelling conventions:
* SQLite tables become Lean lists of rows; surrogate AUTOINCREMENT ids
  become explicit (Nat x row) pairs together with a next-id counter.
* Calendar dates handled as datetime.date values or ISO strings produced
  by date.isoformat() are modelled as epoch day numbers (Int); timedelta
  day arithmetic is integer arithmetic and isoformat is injective, so
  keys built from date strings coincide with keys built from day numbers.
  Day 0 is anchored on a Monday, so Python date.weekday() < 5 becomes
  emod 7 < 5.
* Python floats (probabilities, scores) are modelled as rationals.
* The Mersenne Twister stream produced by random.Random(seed).random()
  is abstracted as a stream of rationals (one per call, in call order),
  carried inside the settings value: the stream is a pure function of
  synthetic_random_seed, so identical configuration means an identical
  stream.
* The synthetic dataset CSV file is modelled at two levels: the textual
  level (CsvFile, a header line plus raw field lists, exactly what
  csv.DictReader yields) for the validator claims, and the tuple level
  (GenFile, the parsed rows the generator serializes) for the seeding
  pipeline claims.
-/

namespace SpaceUtil

/-- Decidable equality on Except results, so concrete runs can be checked
by evaluation. -/
instance {ε α : Type} [DecidableEq ε] [DecidableEq α] : DecidableEq (Except ε α) :=
  fun a b =>
    match a, b with
    | .error x, .error y =>
      if h : x = y then isTrue (by rw [h])
      else isFalse (fun hc => h (by injection hc))
    | .error _, .ok _ => isFalse (fun hc => Except.noConfusion hc)
    | .ok _, .error _ => isFalse (fun hc => Except.noConfusion hc)
    | .ok x, .ok y =>
      if h : x = y then isTrue (by rw [h])
      else isFalse (fun hc => h (by injection hc))

/-- The fields of backend/utils/config.py Settings that the persistence core
reads. synthetic_seed_days is validated to be positive before use, so it is
carried as a Nat (the zero case is the rejected non-positive case).
synthetic_reference_end_date is the parsed %Y-%m-%d date as an epoch day.
rand is the deterministic pseudo-random draw stream of
random.Random(synthetic_random_seed), draw index to value. -/
structure SettingsM where
  synthetic_seed_days : Nat
  synthetic_time_slots : List String
  synthetic_weekday_occupied_probability : ℚ
  synthetic_weekend_occupied_probability : ℚ
  synthetic_reference_end_date : Int
  rand : Nat → ℚ

/-- DataRepository._SYNTHETIC_COLUMNS. -/
def SYNTHETIC_COLUMNS : List String := ["room_id", "date", "time_slot", "occupied"]

/-- DataRepository._ROOM_CATALOG: (id, name, capacity, room_type, location). -/
def ROOM_CATALOG : List (Int × String × Nat × String × String) :=
  [ (1, "Room A", 30, "Classroom", "Block 1"),
    (2, "Room B", 50, "Auditorium", "Block 1"),
    (3, "Room C", 20, "Lab", "Block 2"),
    (4, "Room D", 40, "Classroom", "Block 2"),
    (5, "Room E", 25, "Seminar", "Block 3"),
    (6, "Room F", 60, "Auditorium", "Block 3"),
    (7, "Room G", 35, "Classroom", "Block 4"),
    (8, "Room H", 45, "Lab", "Block 4"),
    (9, "Room I", 30, "Seminar", "Block 5"),
    (10, "Room J", 55, "Auditorium", "Block 5") ]

/-- The catalog ids, in catalog order. -/
def catalogIds : List Int := ROOM_CATALOG.map Prod.fst

/-- DataRepository._SYNTHETIC_WEEKDAY_PROBABILITY_RANGE. -/
def WEEKDAY_PROBABILITY_RANGE : ℚ × ℚ := (mkRat 65 100, mkRat 75 100)

/-- DataRepository._SYNTHETIC_WEEKEND_PROBABILITY_RANGE. -/
def WEEKEND_PROBABILITY_RANGE : ℚ × ℚ := (mkRat 30 100, mkRat 40 100)

/-- Configuration failures raised by _validate_synthetic_configuration
(each a RuntimeError in the source; the constructors mirror the four
distinct messages). -/
inductive ConfigErr
  | nonPositiveSeedDays
  | emptyTimeSlots
  | weekdayProbabilityOutOfRange
  | weekendProbabilityOutOfRange
deriving DecidableEq, Repr

/-- DataRepository._validate_synthetic_configuration together with the two
_validate_probability_range calls, in source order. -/
def validateSyntheticConfiguration (st : SettingsM) : Except ConfigErr Unit :=
  if st.synthetic_seed_days = 0 then .error .nonPositiveSeedDays
  else if st.synthetic_time_slots = [] then .error .emptyTimeSlots
  else if ¬ (WEEKDAY_PROBABILITY_RANGE.1 ≤ st.synthetic_weekday_occupied_probability ∧
      st.synthetic_weekday_occupied_probability ≤ WEEKDAY_PROBABILITY_RANGE.2) then
    .error .weekdayProbabilityOutOfRange
  else if ¬ (WEEKEND_PROBABILITY_RANGE.1 ≤ st.synthetic_weekend_occupied_probability ∧
      st.synthetic_weekend_occupied_probability ≤ WEEKEND_PROBABILITY_RANGE.2) then
    .error .weekendProbabilityOutOfRange
  else .ok ()

/-- Python date.weekday() < 5 (Monday..Friday) for an epoch day anchored on a
Monday. -/
def isWeekdayDay (d : Int) : Bool := d.emod 7 < 5

/-- The day-type occupancy probability chosen inside
_generate_synthetic_dataset_csv for a given day. -/
def occupiedProbability (st : SettingsM) (day : Int) : ℚ :=
  if isWeekdayDay day then st.synthetic_weekday_occupied_probability
  else st.synthetic_weekend_occupied_probability

/-- One parsed data row of the synthetic dataset:
(room_id, date, time_slot, occupied) with the date as an epoch day. -/
structure SynRow where
  room_id : Int
  date : Int
  time_slot : String
  occupied : Int
deriving DecidableEq, Repr

/-- The dedup key (room_id, date, time_slot) of a synthetic row. -/
def synKey (r : SynRow) : Int × Int × String := (r.room_id, r.date, r.time_slot)

/-- The synthetic dataset file at tuple level: the header line plus the
parsed data rows, in file order. -/
structure GenFile where
  header : List String
  rows : List SynRow
deriving DecidableEq, Repr

/-- start_date of _generate_synthetic_dataset_csv:
end_date - timedelta(days=synthetic_seed_days - 1). Generation only runs
after validation, which guarantees synthetic_seed_days is at least 1, so the
Nat subtraction inside matches the Python int subtraction. -/
def startDate (st : SettingsM) : Int :=
  st.synthetic_reference_end_date - ((st.synthetic_seed_days : Int) - 1)

/-- The loop nest of _generate_synthetic_dataset_csv without the draws:
for each day offset in range(synthetic_seed_days), for each catalog room,
for each configured slot, one schedule entry (offset, room_id, slot),
in exactly the order the source loops visit them. -/
def genSchedule (st : SettingsM) : List (Nat × Int × String) :=
  (List.range st.synthetic_seed_days).flatMap fun offset =>
    ROOM_CATALOG.flatMap fun room =>
      st.synthetic_time_slots.map fun slot => (offset, room.1, slot)

/-- DataRepository._generate_synthetic_dataset_csv: the header row followed
by one data row per schedule entry; the k-th data row consumes the k-th
value of the rng.random() stream and compares it against the day-type
probability of its day. -/
def generateSyntheticDatasetCsv (st : SettingsM) : GenFile :=
  { header := SYNTHETIC_COLUMNS
    rows := (genSchedule st).enum.map fun ke =>
      let day : Int := startDate st + (ke.2.1 : Int)
      { room_id := ke.2.2.1
        date := day
        time_slot := ke.2.2.2
        occupied := if st.rand ke.1 < occupiedProbability st day then 1 else 0 } }

/-- DataRepository._expected_synthetic_row_count. -/
def expectedSyntheticRowCount (st : SettingsM) : Nat :=
  ROOM_CATALOG.length * st.synthetic_seed_days * st.synthetic_time_slots.length

/-- DataRepository._ensure_synthetic_dataset_exists: an existing import file
is reused untouched; only a missing file is generated. -/
def ensureSyntheticDatasetExists (st : SettingsM) (f : Option GenFile) : GenFile :=
  match f with
  | some g => g
  | none => generateSyntheticDatasetCsv st

/-! ## The textual import file and _load_synthetic_rows_from_csv -/

/-- The whitespace Python str.strip and int() strip (the ASCII part). -/
def pyIsSpace (c : Char) : Bool :=
  c = ' ' || c = '\t' || c = '\n' || c = '\r' || c = '\x0b' || c = '\x0c'

/-- Python str.strip on the character list of a string. -/
def pyStrip (cs : List Char) : List Char :=
  ((cs.dropWhile pyIsSpace).reverse.dropWhile pyIsSpace).reverse

/-- Python str.split(sep) for a one-character separator, on character
lists: the empty input yields one empty group, a leading separator an empty
first group, and so on. -/
def splitOnChar (sep : Char) : List Char → List (List Char)
  | [] => [[]]
  | c :: rest =>
    if c = sep then [] :: splitOnChar sep rest
    else
      match splitOnChar sep rest with
      | g :: gs => (c :: g) :: gs
      | [] => [[c]]

/-- The numeric value of a digit list. -/
def digitsVal (cs : List Char) : Nat :=
  cs.foldl (fun n c => n * 10 + (c.toNat - 48)) 0

/-- Python int(s) restricted to an unsigned body: optional single
underscores between digit groups, at least one digit, no leading or
trailing underscore. Returns the parsed value. -/
def pyIntDigits (cs : List Char) : Option Nat :=
  if (splitOnChar '_' cs).all fun g => !g.isEmpty && g.all Char.isDigit then
    some (digitsVal (splitOnChar '_' cs).flatten)
  else none

/-- Python int(s) on a string: surrounding whitespace is stripped, an
optional sign precedes the digit body. none models the ValueError branch. -/
def pyInt (s : String) : Option Int :=
  match pyStrip s.data with
  | '-' :: rest => (pyIntDigits rest).map fun n => -(n : Int)
  | '+' :: rest => (pyIntDigits rest).map fun n => (n : Int)
  | cs => (pyIntDigits cs).map fun n => (n : Int)

/-- Gregorian leap year, as datetime implements it. -/
def isLeapYear (y : Nat) : Bool := (y % 4 == 0 && y % 100 != 0) || y % 400 == 0

/-- Length of a month, as datetime implements it. -/
def daysInMonth (y m : Nat) : Nat :=
  if m = 2 then (if isLeapYear y then 29 else 28)
  else if m = 4 ∨ m = 6 ∨ m = 9 ∨ m = 11 then 30
  else 31

/-- datetime.strptime(s, "%Y-%m-%d") succeeding: exactly three dash-joined
groups, a four-digit year (at least 1), a one- or two-digit month in 1..12,
a one- or two-digit day valid for that month, and nothing left over. -/
def pyStrptimeIsoDate (s : String) : Bool :=
  match splitOnChar '-' s.data with
  | [ys, ms, ds] =>
    ys.length == 4 && ys.all Char.isDigit &&
    (ms.length == 1 || ms.length == 2) && ms.all Char.isDigit &&
    (ds.length == 1 || ds.length == 2) && ds.all Char.isDigit &&
    (decide (1 ≤ digitsVal ys) && decide (1 ≤ digitsVal ms) &&
      decide (digitsVal ms ≤ 12) && decide (1 ≤ digitsVal ds) &&
      decide (digitsVal ds ≤ daysInMonth (digitsVal ys) (digitsVal ms)))
  | _ => false

/-- The import file at the textual level, as csv.DictReader hands it to the
loader: the header field list and, per yielded data line, the raw field
strings of that line. -/
structure CsvFile where
  header : List String
  rows : List (List String)
deriving DecidableEq, Repr

/-- The dict csv.DictReader builds for a data line: the n-th header name is
bound to the n-th field of the line; a field position past the end of the
line is absent (None). The header names are pairwise distinct here, so the
first binding is the binding. -/
def csvCell (header fields : List String) (column : String) : Option String :=
  (header.zip fields).lookup column

/-- The RuntimeError exits of _load_synthetic_rows_from_csv, one constructor
per distinct raise site, carrying the line number where the source message
does. (The missing-file raise is modelled at the pipeline level, where the
file option lives; the dead raw_row-is-None branch cannot fire because
DictReader never yields None.) -/
inductive LoadErr
  | badHeader
  | missingValues (line : Nat)
  | badTypes (line : Nat)
  | badRoomId (line : Nat)
  | badDate (line : Nat)
  | badSlot (line : Nat)
  | badOccupied (line : Nat)
  | duplicateKey (line : Nat)
  | wrongCount (expected got : Nat)
deriving DecidableEq, Repr

/-- One accepted row of the textual loader, as the source appends it:
(int(room_id), str(date), str(time_slot), int(occupied)). -/
structure LoadedRow where
  room_id : Int
  date : String
  time_slot : String
  occupied : Int
deriving DecidableEq, Repr

/-- The dedup key of an accepted row. -/
def loadedKey (r : LoadedRow) : Int × String × String := (r.room_id, r.date, r.time_slot)

/-- The missing_columns scan of the loader loop: the expected columns whose
cell is absent or whitespace-blank on this line. -/
def csvMissingColumns (fields : List String) : List String :=
  SYNTHETIC_COLUMNS.filter fun c =>
    match csvCell SYNTHETIC_COLUMNS fields c with
    | none => true
    | some v => (pyStrip v.data).isEmpty

/-- The per-line body of the loader loop: the missing-value scan over the
four columns (stripped emptiness), the int() parses of room_id and occupied
(first ValueError wins, one shared error), then the range, date-format,
slot-membership and binary-occupied checks, in source order. -/
def checkCsvRow (st : SettingsM) (line : Nat) (fields : List String) :
    Except LoadErr LoadedRow :=
  if csvMissingColumns fields ≠ [] then .error (.missingValues line)
  else
    match pyInt ((csvCell SYNTHETIC_COLUMNS fields "room_id").getD ""),
        pyInt ((csvCell SYNTHETIC_COLUMNS fields "occupied").getD "") with
    | some room_id, some occupied =>
      if room_id ∉ catalogIds then .error (.badRoomId line)
      else if ¬ pyStrptimeIsoDate ((csvCell SYNTHETIC_COLUMNS fields "date").getD "") then
        .error (.badDate line)
      else if ((csvCell SYNTHETIC_COLUMNS fields "time_slot").getD "") ∉
          st.synthetic_time_slots then
        .error (.badSlot line)
      else if occupied ≠ 0 ∧ occupied ≠ 1 then .error (.badOccupied line)
      else .ok
        { room_id := room_id,
          date := (csvCell SYNTHETIC_COLUMNS fields "date").getD "",
          time_slot := (csvCell SYNTHETIC_COLUMNS fields "time_slot").getD "",
          occupied := occupied }
    | _, _ => .error (.badTypes line)

/-- The enumerate(reader, start=2) loop of _load_synthetic_rows_from_csv:
per-line checks, then the duplicate-key check against the keys seen so far,
accumulating accepted rows in file order. -/
def loadCsvRowsLoop (st : SettingsM) :
    List (List String) → Nat → List (Int × String × String) → List LoadedRow →
    Except LoadErr (List LoadedRow)
  | [], _, _, acc => .ok acc.reverse
  | fields :: rest, line, seen, acc =>
    match checkCsvRow st line fields with
    | .error e => .error e
    | .ok row =>
      if loadedKey row ∈ seen then .error (.duplicateKey line)
      else loadCsvRowsLoop st rest (line + 1) (loadedKey row :: seen) (row :: acc)

/-- DataRepository._load_synthetic_rows_from_csv on an existing file: the
exact-header check, the validating loop, and the final whole-file count
check against _expected_synthetic_row_count. -/
def loadSyntheticRowsFromCsv (st : SettingsM) (f : CsvFile) :
    Except LoadErr (List LoadedRow) :=
  if f.header ≠ SYNTHETIC_COLUMNS then .error .badHeader
  else
    match loadCsvRowsLoop st f.rows 2 [] [] with
    | .error e => .error e
    | .ok rows =>
      if rows.length ≠ expectedSyntheticRowCount st then
        .error (.wrongCount (expectedSyntheticRowCount st) rows.length)
      else .ok rows

/-- The line number an error of the loader carries, if any. -/
def loadErrLine : LoadErr → Option Nat
  | .missingValues line => some line
  | .badTypes line => some line
  | .badRoomId line => some line
  | .badDate line => some line
  | .badSlot line => some line
  | .badOccupied line => some line
  | .duplicateKey line => some line
  | _ => none

/-- Whether an error of the loader is the whole-file count error. -/
def isCountErr : LoadErr → Bool
  | .wrongCount _ _ => true
  | _ => false

/-! ## The loader at tuple level, for the seeding pipeline

The pipeline claims speak about seed_synthetic_data as a whole, where
the dataset file only ever holds rows the generator serialized or rows a
pre-existing file parsed into; the textual checks that cannot fail on
serialized tuples (field presence, int() parses, ISO date format) reduce to
the value checks below. -/

/-- The loader errors at tuple level. -/
inductive LoadErrT
  | badHeader
  | badRoomId (line : Nat)
  | badSlot (line : Nat)
  | badOccupied (line : Nat)
  | duplicateKey (line : Nat)
  | wrongCount (expected got : Nat)
deriving DecidableEq, Repr

/-- The loader loop at tuple level: catalog-range, slot-membership,
binary-occupied and duplicate-key checks in source order, accumulating
accepted rows in file order. -/
def loadRowsLoopT (st : SettingsM) :
    List SynRow → Nat → List (Int × Int × String) → List SynRow →
    Except LoadErrT (List SynRow)
  | [], _, _, acc => .ok acc.reverse
  | r :: rest, line, seen, acc =>
    if r.room_id ∉ catalogIds then .error (.badRoomId line)
    else if r.time_slot ∉ st.synthetic_time_slots then .error (.badSlot line)
    else if r.occupied ≠ 0 ∧ r.occupied ≠ 1 then .error (.badOccupied line)
    else if synKey r ∈ seen then .error (.duplicateKey line)
    else loadRowsLoopT st rest (line + 1) (synKey r :: seen) (r :: acc)

/-- _load_synthetic_rows_from_csv at tuple level: header check, validating
loop, whole-file count check. -/
def loadSyntheticRowsT (st : SettingsM) (f : GenFile) : Except LoadErrT (List SynRow) :=
  if f.header ≠ SYNTHETIC_COLUMNS then .error .badHeader
  else
    match loadRowsLoopT st f.rows 2 [] [] with
    | .error e => .error e
    | .ok rows =>
      if rows.length ≠ expectedSyntheticRowCount st then
        .error (.wrongCount (expectedSyntheticRowCount st) rows.length)
      else .ok rows

/-! ## Database state and schema lifecycle -/

/-- A Rooms row. created_at is not modelled (never read). -/
structure RoomRow where
  id : Int
  name : String
  capacity : Nat
  room_type : String
  location : String
deriving DecidableEq, Repr

/-- A BookingHistory row (without its surrogate id). -/
structure HistRow where
  room_id : Int
  date : Int
  time_slot : String
  occupied : Int
deriving DecidableEq, Repr

/-- The (room_id, date, time_slot) key of a history row, the column set of
the unique index idx_booking_unique_room_date_slot. -/
def historyKey (r : HistRow) : Int × Int × String := (r.room_id, r.date, r.time_slot)

/-- A Requests row (without its surrogate id). The stakeholder_id column is
present from creation in this model; the ALTER TABLE drift migration of
initialize_database is a no-op on it. -/
structure ReqRow where
  requested_capacity : Int
  requested_date : String
  requested_time_slot : String
  priority_weight : ℚ
  stakeholder_id : String
  status : String
deriving DecidableEq, Repr

/-- A Predictions row (without its surrogate id). created_at is not
modelled (never read). -/
structure PredRow where
  room_id : Int
  date : String
  time_slot : String
  idle_probability : ℚ
deriving DecidableEq, Repr

/-- The durable state of the store: the six tables (log tables as plain
row lists, id-carrying tables as (id x row) lists in insertion order with
their next AUTOINCREMENT id), the flag recording whether the unique
BookingHistory index exists yet, and the import file (none when the file
does not exist on disk). -/
structure DBState where
  rooms : List RoomRow
  history : List (Nat × HistRow)
  requests : List (Nat × ReqRow)
  predictions : List (Nat × PredRow)
  allocationLogs : List (Int × Int × ℚ)
  forecastLogs : List (String × String × Int × ℚ)
  bookingUniqueIndex : Bool
  nextHistoryId : Nat
  nextRequestId : Nat
  nextPredictionId : Nat
  importFile : Option GenFile
deriving DecidableEq, Repr

/-- The surrogate ids of the history rows. -/
def historyIds (h : List (Nat × HistRow)) : List Nat := h.map Prod.fst

/-- The keys of the history rows, in table order. -/
def historyKeys (h : List (Nat × HistRow)) : List (Int × Int × String) :=
  h.map fun p => historyKey p.2

/-- Whether id i is one of the per-key minimum ids of h, i.e. a member of
SELECT MIN(id) FROM BookingHistory GROUP BY room_id, date, time_slot. -/
def isGroupMinId (h : List (Nat × HistRow)) (i : Nat) : Bool :=
  h.any fun q =>
    ((h.filter fun r => historyKey r.2 = historyKey q.2).map Prod.fst).min? = some i

/-- The data-hygiene DELETE of initialize_database: keep exactly the rows
whose id appears in the per-key MIN(id) subquery. -/
def dedupeHistory (h : List (Nat × HistRow)) : List (Nat × HistRow) :=
  h.filter fun p => isGroupMinId h p.1

/-- DataRepository.initialize_database: the CREATE TABLE / CREATE INDEX
statements are no-ops on the modelled state except for the duplicate-row
DELETE (which runs before the unique index is created) and the creation of
the unique BookingHistory index itself; the stakeholder_id drift migration
is a no-op here because ReqRow always carries the column. -/
def initDatabase (s : DBState) : DBState :=
  { s with history := dedupeHistory s.history, bookingUniqueIndex := true }

/-! ## Seeding -/

/-- The row a catalog tuple inserts into Rooms. -/
def catalogRoomRow (t : Int × String × Nat × String × String) : RoomRow :=
  { id := t.1, name := t.2.1, capacity := t.2.2.1, room_type := t.2.2.2.1,
    location := t.2.2.2.2 }

/-- The ids present in a Rooms table. -/
def roomIds (rooms : List RoomRow) : List Int := rooms.map RoomRow.id

/-- The INSERT OR IGNORE of the catalog into Rooms: a catalog tuple whose
explicit primary-key id already exists is skipped, any other is appended,
in catalog order. -/
def insertOrIgnoreRooms (rooms : List RoomRow) : List RoomRow :=
  ROOM_CATALOG.foldl
    (fun acc t => if t.1 ∈ roomIds acc then acc else acc ++ [catalogRoomRow t]) rooms

/-- sorted(expected_room_ids - persisted_room_ids) of _seed_room_catalog,
where persisted_room_ids is SELECT id FROM Rooms WHERE id BETWEEN 1 AND 10:
filtering the already sorted duplicate-free catalog id list [1..10] yields
exactly the sorted set difference. -/
def missingRoomIds (rooms : List RoomRow) : List Int :=
  let persisted := (rooms.filter fun r => 1 ≤ r.id ∧ r.id ≤ 10).map RoomRow.id
  catalogIds.filter fun i => i ∉ persisted

/-- The failures of seed_synthetic_data: a configuration error, a loader
error, or the missing-catalog-ids RuntimeError of _seed_room_catalog
(carrying the sorted missing ids its message names). -/
inductive SeedErr
  | config (e : ConfigErr)
  | load (e : LoadErrT)
  | missingRooms (ids : List Int)
deriving DecidableEq, Repr

/-- The tail of _seed_room_catalog after the insert: re-read the persisted
ids from the Rooms table as it stands and fail, naming the sorted missing
ids, if any catalog id is absent. -/
def roomCatalogCheck (rooms : List RoomRow) : Except SeedErr Unit :=
  if missingRoomIds rooms ≠ [] then .error (.missingRooms (missingRoomIds rooms))
  else .ok ()

/-- DataRepository._seed_room_catalog: ignore-on-conflict catalog insert,
then the re-read integrity check on the resulting table. -/
def seedRoomCatalog (rooms : List RoomRow) : Except SeedErr (List RoomRow) :=
  match roomCatalogCheck (insertOrIgnoreRooms rooms) with
  | .error e => .error e
  | .ok _ => .ok (insertOrIgnoreRooms rooms)

/-- The history row a validated synthetic row inserts. -/
def synToHistRow (r : SynRow) : HistRow :=
  { room_id := r.room_id, date := r.date, time_slot := r.time_slot,
    occupied := r.occupied }

/-- The INSERT OR IGNORE executemany into BookingHistory: with the unique
(room_id, date, time_slot) index in place a row whose key is already present
is skipped (and consumes no AUTOINCREMENT id); without the index nothing
conflicts and every row is appended. Foreign keys cannot fire on the seed
path: every candidate room_id lies in the catalog id set and _seed_room_catalog
has established that all catalog ids are persisted. -/
def insertOrIgnoreHistory (uniqueIdx : Bool) :
    List (Nat × HistRow) → Nat → List SynRow → List (Nat × HistRow) × Nat
  | h, nid, [] => (h, nid)
  | h, nid, r :: rs =>
    if uniqueIdx ∧ historyKey (synToHistRow r) ∈ historyKeys h then
      insertOrIgnoreHistory uniqueIdx h nid rs
    else
      insertOrIgnoreHistory uniqueIdx (h ++ [(nid, synToHistRow r)]) (nid + 1) rs

/-- The inserted / duplicate counts seed_synthetic_data logs:
inserted = post-count - pre-count, duplicates = max(candidates - inserted, 0)
(Nat subtraction is the max with 0). -/
structure SeedReport where
  candidates : Nat
  inserted : Nat
  duplicates : Nat
deriving DecidableEq, Repr

/-- The transaction body of seed_synthetic_data after a successful load:
catalog seeding with its integrity check, then the bulk ignore-on-conflict
history insert with its before/after counts. -/
def seedInsertPhase (s1 : DBState) (rows : List SynRow) :
    DBState × Except SeedErr SeedReport :=
  match seedRoomCatalog s1.rooms with
  | .error e => (s1, .error e)
  | .ok rooms2 =>
    ({ s1 with
        rooms := rooms2,
        history := (insertOrIgnoreHistory s1.bookingUniqueIndex s1.history
          s1.nextHistoryId rows).1,
        nextHistoryId := (insertOrIgnoreHistory s1.bookingUniqueIndex s1.history
          s1.nextHistoryId rows).2 },
      .ok
        { candidates := rows.length,
          inserted := (insertOrIgnoreHistory s1.bookingUniqueIndex s1.history
            s1.nextHistoryId rows).1.length - s1.history.length,
          duplicates := rows.length -
            ((insertOrIgnoreHistory s1.bookingUniqueIndex s1.history
              s1.nextHistoryId rows).1.length - s1.history.length) })

/-- DataRepository.seed_synthetic_data: configuration validation, ensure
the import file exists (generating it if absent — the file persists on disk
even when a later step fails), load and validate the rows, then the insert
phase. A storage failure inside the transaction (including the catalog
check) rolls the transaction back, so the returned state on error differs
from the input state at most in the import file. -/
def seedSyntheticData (st : SettingsM) (s : DBState) :
    DBState × Except SeedErr SeedReport :=
  match validateSyntheticConfiguration st with
  | .error e => (s, .error (.config e))
  | .ok _ =>
    match loadSyntheticRowsT st (ensureSyntheticDatasetExists st s.importFile) with
    | .error e =>
      ({ s with importFile := some (ensureSyntheticDatasetExists st s.importFile) },
        .error (.load e))
    | .ok rows =>
      seedInsertPhase
        { s with importFile := some (ensureSyntheticDatasetExists st s.importFile) } rows

/-! ## QueryService and WriteService operations the claims touch -/

/-- DataRepository.list_known_time_slots: the DISTINCT time_slot values of
BookingHistory, sorted by Python sorted() when any exist, else the
configured slot tuple verbatim. The order SQLite returns the distinct
values in is irrelevant because sorted() re-orders them; dedup keeps one
occurrence of each value. -/
def listKnownTimeSlots (st : SettingsM) (s : DBState) : List String :=
  let slots := ((s.history.map fun p => p.2.time_slot).dedup)
  if slots ≠ [] then List.insertionSort (fun a b => a ≤ b) slots
  else st.synthetic_time_slots

/-- DataRepository.save_prediction: append one Predictions row with the next
surrogate id. The room_id foreign key is enforced (PRAGMA foreign_keys=ON):
an unknown room makes the insert fail, leaving the state unchanged (none). -/
def savePrediction (s : DBState) (room_id : Int) (date time_slot : String)
    (idle_probability : ℚ) : Option DBState :=
  if room_id ∈ roomIds s.rooms then
    some { s with
      predictions := s.predictions ++
        [(s.nextPredictionId,
          { room_id := room_id, date := date, time_slot := time_slot,
            idle_probability := idle_probability })],
      nextPredictionId := s.nextPredictionId + 1 }
  else none

/-- The WHERE clause of the subquery in list_idle_predictions: the
Predictions rows for the requested date and slot. -/
def predFiltered (preds : List (Nat × PredRow)) (date time_slot : String) :
    List (Nat × PredRow) :=
  preds.filter fun p => p.2.date = date ∧ p.2.time_slot = time_slot

/-- MAX(id) of one GROUP BY group of the subquery: the filtered rows of one
room (the grouping degenerates to per-room because date and slot are fixed
by the WHERE clause). -/
def predMaxIdForRoom (preds : List (Nat × PredRow)) (date time_slot : String)
    (r : Int) : Option Nat :=
  (((predFiltered preds date time_slot).filter fun p => p.2.room_id = r).map
    Prod.fst).max?

/-- The INNER JOIN of list_idle_predictions: for each room of the grouped
subquery, the full-table row whose primary key equals that group MAX(id). -/
def idleJoined (preds : List (Nat × PredRow)) (date time_slot : String) :
    List PredRow :=
  (((predFiltered preds date time_slot).map fun p => p.2.room_id).dedup).filterMap
    fun r =>
      match predMaxIdForRoom preds date time_slot r with
      | none => none
      | some mid => preds.lookup mid

/-- DataRepository.list_idle_predictions: the joined latest-per-room rows,
ordered by room_id ascending. -/
def listIdlePredictions (s : DBState) (date time_slot : String) : List PredRow :=
  List.insertionSort (fun a b => a.room_id ≤ b.room_id)
    (idleJoined s.predictions date time_slot)

/-- DataRepository.create_request: insert one Requests row with status
defaulted to PENDING and return the generated id. The CHECK
(requested_capacity > 0) is enforced by the engine: a non-positive capacity
fails the insert (none). -/
def createRequest (s : DBState) (requested_capacity : Int)
    (requested_date requested_time_slot : String) (priority_weight : ℚ)
    (stakeholder_id : String) : Option (DBState × Nat) :=
  if requested_capacity > 0 then
    some
      ({ s with
          requests := s.requests ++
            [(s.nextRequestId,
              { requested_capacity := requested_capacity,
                requested_date := requested_date,
                requested_time_slot := requested_time_slot,
                priority_weight := priority_weight,
                stakeholder_id := stakeholder_id,
                status := "PENDING" })],
          nextRequestId := s.nextRequestId + 1 },
        s.nextRequestId)
  else none

/-- DataRepository.get_request_status: the status of the first (unique) row
with the given id, or none. -/
def getRequestStatus (s : DBState) (request_id : Nat) : Option String :=
  (s.requests.lookup request_id).map ReqRow.status

/-- The per-row effect of UPDATE Requests SET status = ALLOCATED
WHERE id IN ids: listed rows get status ALLOCATED, all other columns and
all other rows stay as they are. -/
def allocMark (ids : List Nat) (p : Nat × ReqRow) : Nat × ReqRow :=
  if p.1 ∈ ids then (p.1, { p.2 with status := "ALLOCATED" }) else p

/-- DataRepository.mark_requests_allocated: early return on an empty id
list; otherwise the bulk UPDATE applies allocMark to every row. -/
def markRequestsAllocated (s : DBState) (request_ids : List Nat) : DBState :=
  if request_ids = [] then s
  else { s with requests := s.requests.map (allocMark request_ids) }

/-- DataRepository.save_forecast_output: no-op on an empty batch, else
append-only inserts into DemandForecastLogs. -/
def saveForecastOutput (s : DBState) (forecast_date : String)
    (forecasts : List (String × Int × ℚ)) : DBState :=
  if forecasts = [] then s
  else
    { s with
        forecastLogs := s.forecastLogs ++
          forecasts.map fun f => (forecast_date, f.1, f.2.1, f.2.2) }

/-- DataRepository.save_allocation_logs: no-op on an empty batch, else
append-only inserts into AllocationLogs. The request_id and room_id foreign
keys are enforced: a batch referencing an unknown request or room fails as
a whole (none) and the transaction rolls back. -/
def saveAllocationLogs (s : DBState) (rows : List (Int × Int × ℚ)) :
    Option DBState :=
  if rows = [] then some s
  else if rows.all fun r =>
      (s.requests.map fun p => (p.1 : Int)).contains r.1 ∧ r.2.1 ∈ roomIds s.rooms then
    some { s with allocationLogs := s.allocationLogs ++ rows }
  else none

/-- The state-modifying operations of the repository surface. Read-only
operations are omitted: they return values without touching the state. -/
inductive Op
  | opInitDatabase
  | opSeedSyntheticData (st : SettingsM)
  | opSavePrediction (room_id : Int) (date time_slot : String) (p : ℚ)
  | opSaveForecastOutput (forecast_date : String) (fs : List (String × Int × ℚ))
  | opSaveAllocationLogs (rows : List (Int × Int × ℚ))
  | opCreateRequest (cap : Int) (date time_slot : String) (w : ℚ) (sid : String)
  | opMarkRequestsAllocated (ids : List Nat)

/-- The state after running one repository operation: a failing operation
rolls its transaction back, leaving the state unchanged (a failing seed run
still leaves the import file it may have created, as seedSyntheticData
models). -/
def applyOp (s : DBState) : Op → DBState
  | .opInitDatabase => initDatabase s
  | .opSeedSyntheticData st => (seedSyntheticData st s).1
  | .opSavePrediction r d t p => (savePrediction s r d t p).getD s
  | .opSaveForecastOutput fd fs => saveForecastOutput s fd fs
  | .opSaveAllocationLogs rows => (saveAllocationLogs s rows).getD s
  | .opCreateRequest cap d t w sid =>
      match createRequest s cap d t w sid with
      | some x => x.1
      | none => s
  | .opMarkRequestsAllocated ids => markRequestsAllocated s ids

/-! ## Shared concrete sample values -/

/-- The default configuration of backend/utils/config.py: 21 seed days,
the four default slots, probabilities 0.65 and 0.35, the reference end
date as an epoch day, the draw stream abstracted as the constant 1/2. -/
def sampleSettings : SettingsM :=
  { synthetic_seed_days := 21
    synthetic_time_slots := ["09-11", "11-13", "14-16", "16-18"]
    synthetic_weekday_occupied_probability := mkRat 65 100
    synthetic_weekend_occupied_probability := mkRat 35 100
    synthetic_reference_end_date := 20505
    rand := fun _ => mkRat 1 2 }

/-- A freshly created store: empty tables, unique index not yet created,
no import file on disk. -/
def emptyDB : DBState :=
  { rooms := []
    history := []
    requests := []
    predictions := []
    allocationLogs := []
    forecastLogs := []
    bookingUniqueIndex := false
    nextHistoryId := 1
    nextRequestId := 1
    nextPredictionId := 1
    importFile := none }

/-- A store holding a single history row, for exercising the non-empty
branches. -/
def sampleHistDB : DBState :=
  { emptyDB with history := [(1, { room_id := 1, date := 0, time_slot := "09-11", occupied := 1 })] }

/-- A sample PENDING request row. -/
def sampleReqRow : ReqRow :=
  { requested_capacity := 25
    requested_date := "2026-03-01"
    requested_time_slot := "09-11"
    priority_weight := 1
    stakeholder_id := "dept-a"
    status := "PENDING" }

/-- A store holding a single PENDING request with id 1. -/
def sampleReqDB : DBState :=
  { emptyDB with requests := [(1, sampleReqRow)], nextRequestId := 2 }

/-- A configuration whose slot list is legal for the validator but not in
sorted order. -/
def unsortedSlotSettings : SettingsM :=
  { sampleSettings with synthetic_time_slots := ["11-13", "09-11"] }

/-- A configuration rejected by the validator: zero seed days. -/
def zeroDaySettings : SettingsM :=
  { sampleSettings with synthetic_seed_days := 0 }

/-- A store holding the seeded room catalog and nothing else. -/
def predRoomsDB : DBState := { emptyDB with rooms := insertOrIgnoreRooms [] }

/-- A first stored prediction for room 1. -/
def samplePred1 : PredRow :=
  { room_id := 1, date := "2026-03-01", time_slot := "09-11",
    idle_probability := mkRat 1 4 }

/-- A later prediction for the same (room, date, slot) with a different
probability. -/
def samplePred2 : PredRow := { samplePred1 with idle_probability := mkRat 3 4 }

/-- The store after saving samplePred1. -/
def predsDB1 : DBState :=
  { predRoomsDB with predictions := [(1, samplePred1)], nextPredictionId := 2 }

/-- The store after saving samplePred1 and then samplePred2. -/
def predsDB2 : DBState :=
  { predRoomsDB with
      predictions := [(1, samplePred1), (2, samplePred2)]
      nextPredictionId := 3 }

/-- A store whose history holds two rows sharing a key (ids 1 and 2) and a
row with a unique key (id 3). -/
def dupHistDB : DBState :=
  { emptyDB with
      history :=
        [ (1, { room_id := 1, date := 0, time_slot := "09-11", occupied := 1 }),
          (2, { room_id := 1, date := 0, time_slot := "09-11", occupied := 0 }),
          (3, { room_id := 2, date := 0, time_slot := "09-11", occupied := 1 }) ],
      nextHistoryId := 4 }

/-! ## C9: list_known_time_slots -/

/-- C9 (amended): for every database state, list_known_time_slots returns
the distinct time_slot values observed in BookingHistory, in sorted order,
when history is non-empty, and the configured slot list verbatim (in its
configured order) when history is empty. -/
theorem claim_C9_listKnownTimeSlots (st : SettingsM) (s : DBState) :
    (s.history ≠ [] →
      (listKnownTimeSlots st s).Sorted (fun a b => a ≤ b) ∧
      (listKnownTimeSlots st s).Nodup ∧
      (∀ x, x ∈ listKnownTimeSlots st s ↔ ∃ p ∈ s.history, p.2.time_slot = x)) ∧
    (s.history = [] → listKnownTimeSlots st s = st.synthetic_time_slots) := by
  constructor
  · intro h
    have hne : ((s.history.map fun p => p.2.time_slot).dedup) ≠ [] := by
      simp [List.dedup_eq_nil]
      exact h
    unfold listKnownTimeSlots
    rw [if_pos hne]
    refine ⟨List.sorted_insertionSort _ _, ?_, ?_⟩
    · exact (List.perm_insertionSort _ _).nodup_iff.mpr (List.nodup_dedup _)
    · intro x
      rw [(List.perm_insertionSort _ _).mem_iff, List.mem_dedup, List.mem_map]
  · intro h
    unfold listKnownTimeSlots
    rw [if_neg]
    simp [h]

/-- C9 counterexample: with a configured slot list that is not sorted and
an empty history, list_known_time_slots returns the configured list
verbatim, which is not in sorted order — refuting the claim that the
returned sequence is sorted in both cases. -/
theorem claim_C9_counterexample :
    listKnownTimeSlots unsortedSlotSettings emptyDB = ["11-13", "09-11"] ∧
    ¬ (listKnownTimeSlots unsortedSlotSettings emptyDB).Sorted (fun a b => a ≤ b) := by
  refine ⟨rfl, ?_⟩
  intro hsorted
  rw [show listKnownTimeSlots unsortedSlotSettings emptyDB = ["11-13", "09-11"] from rfl] at hsorted
  have hle : ("11-13" : String) ≤ "09-11" :=
    (List.sorted_cons.mp hsorted).1 "09-11" (by simp)
  have hlt : ("09-11" : String) < "11-13" := by
    rw [String.lt_iff_toList_lt]; decide
  exact absurd hle (not_le.mpr hlt)

/-- C9 witness: the non-empty-history branch of the amended claim at a
concrete store with one history row. -/
theorem claim_C9_witness :
    sampleHistDB.history ≠ [] ∧
    (listKnownTimeSlots sampleSettings sampleHistDB).Sorted (fun a b => a ≤ b) ∧
    ("09-11" ∈ listKnownTimeSlots sampleSettings sampleHistDB ↔
      ∃ p ∈ sampleHistDB.history, p.2.time_slot = "09-11") :=
  ⟨by decide,
   ((claim_C9_listKnownTimeSlots sampleSettings sampleHistDB).1 (by decide)).1,
   ((claim_C9_listKnownTimeSlots sampleSettings sampleHistDB).1 (by decide)).2.2 "09-11"⟩

/-! ## C10: mark_requests_allocated frame -/

/-- C10 (confirmed): mark_requests_allocated never errors (it is a total
function of the state), creates and deletes no Requests row (the id column
is unchanged position by position), leaves every row whose id is not listed
entirely unchanged, changes at most the status column of listed rows, and
touches no other table, counter, or the import file. -/
theorem claim_C10_markRequestsAllocated_frame (s : DBState) (ids : List Nat) :
    (markRequestsAllocated s ids).requests.length = s.requests.length ∧
    (markRequestsAllocated s ids).requests.map Prod.fst = s.requests.map Prod.fst ∧
    (∀ p ∈ s.requests, p.1 ∉ ids → p ∈ (markRequestsAllocated s ids).requests) ∧
    (∀ p ∈ (markRequestsAllocated s ids).requests,
      ∃ q ∈ s.requests, q.1 = p.1 ∧
        p.2.requested_capacity = q.2.requested_capacity ∧
        p.2.requested_date = q.2.requested_date ∧
        p.2.requested_time_slot = q.2.requested_time_slot ∧
        p.2.priority_weight = q.2.priority_weight ∧
        p.2.stakeholder_id = q.2.stakeholder_id ∧
        (p.1 ∉ ids → p.2.status = q.2.status)) ∧
    (markRequestsAllocated s ids).rooms = s.rooms ∧
    (markRequestsAllocated s ids).history = s.history ∧
    (markRequestsAllocated s ids).predictions = s.predictions ∧
    (markRequestsAllocated s ids).allocationLogs = s.allocationLogs ∧
    (markRequestsAllocated s ids).forecastLogs = s.forecastLogs ∧
    (markRequestsAllocated s ids).importFile = s.importFile ∧
    (markRequestsAllocated s ids).nextRequestId = s.nextRequestId := by
  unfold markRequestsAllocated
  by_cases hids : ids = []
  · rw [if_pos hids]
    subst hids
    refine ⟨rfl, rfl, ?_, ?_, rfl, rfl, rfl, rfl, rfl, rfl, rfl⟩
    · intro p hp _
      exact hp
    · intro p hp
      exact ⟨p, hp, rfl, rfl, rfl, rfl, rfl, rfl, fun _ => rfl⟩
  · rw [if_neg hids]
    refine ⟨by simp, ?_, ?_, ?_, rfl, rfl, rfl, rfl, rfl, rfl, rfl⟩
    · simp only [List.map_map]
      apply List.map_congr_left
      intro p _
      by_cases hm : p.1 ∈ ids <;> simp [allocMark, hm]
    · intro p hp hnot
      simp only [List.mem_map]
      exact ⟨p, hp, by simp [allocMark, hnot]⟩
    · intro p hp
      simp only [List.mem_map] at hp
      obtain ⟨q, hq, hpq⟩ := hp
      unfold allocMark at hpq
      by_cases hm : q.1 ∈ ids
      · rw [if_pos hm] at hpq
        subst hpq
        exact ⟨q, hq, rfl, rfl, rfl, rfl, rfl, rfl, fun hc => absurd hm hc⟩
      · rw [if_neg hm] at hpq
        subst hpq
        exact ⟨q, hq, rfl, rfl, rfl, rfl, rfl, rfl, fun _ => rfl⟩

/-- C10 witness: at a concrete store with one PENDING request, marking a
non-existent id changes nothing: same row count and the original row still
present. -/
theorem claim_C10_witness :
    (markRequestsAllocated sampleReqDB [99]).requests.length =
      sampleReqDB.requests.length ∧
    (1, sampleReqRow) ∈ (markRequestsAllocated sampleReqDB [99]).requests :=
  ⟨(claim_C10_markRequestsAllocated_frame sampleReqDB [99]).1,
   (claim_C10_markRequestsAllocated_frame sampleReqDB [99]).2.2.1
     (1, sampleReqRow) (by decide) (by decide)⟩

/-! ## C5: request lifecycle -/

/-- Looking a request id up after the bulk status UPDATE finds the same row
as before, with its status overwritten exactly when its id is listed. -/
theorem lookup_mark_map (l : List (Nat × ReqRow)) (ids : List Nat) (i : Nat) :
    List.lookup i (l.map (allocMark ids)) =
    (List.lookup i l).map
      (fun q => if i ∈ ids then { q with status := "ALLOCATED" } else q) := by
  induction l with
  | nil => simp
  | cons p l ih =>
    obtain ⟨a, b⟩ := p
    by_cases hi : i = a
    · subst hi
      by_cases hm : i ∈ ids
      · simp [allocMark, List.lookup_cons, if_pos hm]
      · simp [allocMark, List.lookup_cons, if_neg hm]
    · have hbeq : (i == a) = false := beq_false_of_ne hi
      by_cases hm : a ∈ ids
      · simp only [List.map_cons, allocMark, if_pos hm, List.lookup_cons, hbeq]
        exact ih
      · simp only [List.map_cons, allocMark, if_neg hm, List.lookup_cons, hbeq]
        exact ih

/-- The seeding pipeline never touches the Requests table (on error the
transaction rolls back, on success only Rooms, BookingHistory, the history
counter and the import file change). -/
theorem seed_requests_eq (st : SettingsM) (s : DBState) :
    (seedSyntheticData st s).1.requests = s.requests := by
  unfold seedSyntheticData seedInsertPhase
  repeat' split
  all_goals rfl

/-- C5 (confirmed): a request is PENDING immediately after creation (the
fresh-id hypothesis is the AUTOINCREMENT guarantee that existing ids are
below the next id); marking it allocated makes its status ALLOCATED;
re-marking is a no-op on the whole state (hence error-free); and no
state-modifying operation of the repository ever moves a status from
ALLOCATED back to PENDING. -/
theorem claim_C5_request_lifecycle :
    (∀ (s : DBState) (cap : Int) (d t : String) (w : ℚ) (sid : String)
        (s2 : DBState) (r : Nat),
        (∀ p ∈ s.requests, p.1 < s.nextRequestId) →
        createRequest s cap d t w sid = some (s2, r) →
        getRequestStatus s2 r = some "PENDING") ∧
    (∀ (s : DBState) (r : Nat), (getRequestStatus s r).isSome →
        getRequestStatus (markRequestsAllocated s [r]) r = some "ALLOCATED") ∧
    (∀ (s : DBState) (ids : List Nat),
        markRequestsAllocated (markRequestsAllocated s ids) ids =
          markRequestsAllocated s ids) ∧
    (∀ (s : DBState) (op : Op) (r : Nat),
        getRequestStatus s r = some "ALLOCATED" →
        getRequestStatus (applyOp s op) r = some "ALLOCATED") := by
  have hmark : ∀ (s : DBState) (ids : List Nat) (r : Nat) (q : ReqRow),
      List.lookup r s.requests = some q →
      getRequestStatus (markRequestsAllocated s ids) r =
        some (if r ∈ ids then { q with status := "ALLOCATED" } else q).status := by
    intro s ids r q hq
    unfold markRequestsAllocated getRequestStatus
    by_cases hids : ids = []
    · subst hids
      simp [hq]
    · rw [if_neg hids]
      simp [lookup_mark_map, hq]
  refine ⟨?_, ?_, ?_, ?_⟩
  · intro s cap d t w sid s2 r hfresh hcreate
    unfold createRequest at hcreate
    by_cases hcap : cap > 0
    · rw [if_pos hcap] at hcreate
      obtain ⟨hs2, hr⟩ := Prod.mk.injEq .. ▸ Option.some.injEq .. ▸ hcreate
      have hnone : List.lookup r s.requests = none := by
        rw [List.lookup_eq_none_iff]
        intro p hp
        have := hfresh p hp
        exact bne_iff_ne.mpr (by omega)
      subst hs2
      unfold getRequestStatus
      rw [List.lookup_append, hnone, Option.none_or]
      subst hr
      simp [List.lookup_cons]
    · rw [if_neg hcap] at hcreate
      exact absurd hcreate (by simp)
  · intro s r hsome
    obtain ⟨q, hq⟩ := Option.isSome_iff_exists.mp hsome
    unfold getRequestStatus at hq
    obtain ⟨q0, hq0, hq0s⟩ : ∃ q0, List.lookup r s.requests = some q0 ∧ q0.status = q := by
      cases hl : List.lookup r s.requests with
      | none => rw [hl] at hq; simp at hq
      | some v => rw [hl] at hq; exact ⟨v, rfl, by simpa using hq⟩
    rw [hmark s [r] r q0 hq0]
    simp
  · intro s ids
    have hidem : ∀ p, allocMark ids (allocMark ids p) = allocMark ids p := by
      intro p
      unfold allocMark
      by_cases hm : p.1 ∈ ids
      · rw [if_pos hm]
        simp [hm]
      · rw [if_neg hm, if_neg hm]
    unfold markRequestsAllocated
    by_cases hids : ids = []
    · simp [hids]
    · simp only [if_neg hids, List.map_map]
      congr 1
      exact List.map_congr_left fun p _ => by rw [Function.comp_apply, hidem p]
  · intro s op r hall
    obtain ⟨q0, hq0, hq0s⟩ : ∃ q0, List.lookup r s.requests = some q0 ∧
        q0.status = "ALLOCATED" := by
      unfold getRequestStatus at hall
      cases hl : List.lookup r s.requests with
      | none => rw [hl] at hall; simp at hall
      | some v => rw [hl] at hall; exact ⟨v, rfl, by simpa using hall⟩
    cases op with
    | opInitDatabase =>
      exact hall
    | opSeedSyntheticData st =>
      show getRequestStatus (seedSyntheticData st s).1 r = _
      unfold getRequestStatus
      rw [seed_requests_eq st s]
      unfold getRequestStatus at hall
      exact hall
    | opSavePrediction rid d t p =>
      show getRequestStatus ((savePrediction s rid d t p).getD s) r = _
      unfold savePrediction
      by_cases hr : rid ∈ roomIds s.rooms
      · rw [if_pos hr]
        exact hall
      · rw [if_neg hr]
        exact hall
    | opSaveForecastOutput fd fs =>
      show getRequestStatus (saveForecastOutput s fd fs) r = _
      unfold saveForecastOutput
      by_cases hfs : fs = []
      · rw [if_pos hfs]; exact hall
      · rw [if_neg hfs]; exact hall
    | opSaveAllocationLogs rows =>
      show getRequestStatus ((saveAllocationLogs s rows).getD s) r = _
      unfold saveAllocationLogs
      by_cases hrows : rows = []
      · rw [if_pos hrows]; exact hall
      · rw [if_neg hrows]
        split
        · exact hall
        · exact hall
    | opCreateRequest cap d t w sid =>
      show getRequestStatus
        (match createRequest s cap d t w sid with
          | some x => x.1
          | none => s) r = _
      unfold createRequest
      by_cases hcap : cap > 0
      · rw [if_pos hcap]
        unfold getRequestStatus
        rw [List.lookup_append, hq0]
        simp [hq0s]
      · rw [if_neg hcap]
        exact hall
    | opMarkRequestsAllocated ids =>
      show getRequestStatus (markRequestsAllocated s ids) r = _
      rw [hmark s ids r q0 hq0]
      by_cases hm : r ∈ ids
      · rw [if_pos hm]
      · rw [if_neg hm, hq0s]

/-- C5 witness: creating a request in the empty store yields id 1 with
status PENDING; marking [1] makes it ALLOCATED; marking again keeps it
ALLOCATED. -/
theorem claim_C5_witness :
    ((∀ p ∈ emptyDB.requests, p.1 < emptyDB.nextRequestId) ∧
      createRequest emptyDB 25 "2026-03-01" "09-11" 1 "dept-a" = some (sampleReqDB, 1)) ∧
    getRequestStatus sampleReqDB 1 = some "PENDING" ∧
    (getRequestStatus sampleReqDB 1).isSome ∧
    getRequestStatus (markRequestsAllocated sampleReqDB [1]) 1 = some "ALLOCATED" ∧
    getRequestStatus
      (applyOp (markRequestsAllocated sampleReqDB [1]) (Op.opMarkRequestsAllocated [1])) 1 =
      some "ALLOCATED" := by
  have h1 := claim_C5_request_lifecycle.1 emptyDB 25 "2026-03-01" "09-11" 1 "dept-a"
    sampleReqDB 1 (by decide) (by decide)
  have h2 := claim_C5_request_lifecycle.2.1 sampleReqDB 1 (by rw [h1]; decide)
  have h4 := claim_C5_request_lifecycle.2.2.2 (markRequestsAllocated sampleReqDB [1])
    (Op.opMarkRequestsAllocated [1]) 1 h2
  exact ⟨⟨by decide, by decide⟩, h1, by rw [h1]; decide, h2, h4⟩

/-! ## C4: room-catalog integrity check -/

/-- Every catalog id lies between 1 and 10. -/
theorem catalogIds_bounds : ∀ i : Int, i ∈ catalogIds → 1 ≤ i ∧ i ≤ 10 := by
  intro i h
  simp only [catalogIds, ROOM_CATALOG, List.map_cons, List.map_nil, List.mem_cons,
    List.not_mem_nil, or_false] at h
  rcases h with h | h | h | h | h | h | h | h | h | h <;> omega

/-- The missing-id list re-read by _seed_room_catalog contains exactly the
catalog ids for which no Rooms row exists. -/
theorem mem_missingRoomIds (t : List RoomRow) (i : Int) :
    i ∈ missingRoomIds t ↔ i ∈ catalogIds ∧ ∀ r ∈ t, r.id ≠ i := by
  unfold missingRoomIds
  rw [List.mem_filter]
  simp only [decide_eq_true_eq, List.mem_map, List.mem_filter, not_exists]
  constructor
  · rintro ⟨hc, hnp⟩
    refine ⟨hc, ?_⟩
    intro r hr hri
    have hb := catalogIds_bounds i hc
    exact hnp r ⟨⟨hr, by rw [hri]; exact ⟨by omega, by omega⟩⟩, hri⟩
  · rintro ⟨hc, hno⟩
    refine ⟨hc, ?_⟩
    rintro r ⟨⟨hr, _⟩, hri⟩
    exact hno r hr hri

/-- C4 (confirmed): whenever, at the re-read that follows the
ignore-on-conflict catalog insert, some catalog id 1..10 has no persisted
Rooms row, the check fails with an error naming exactly the sorted list of
absent catalog ids; when all ten are persisted it passes; and any failing
seed run (the catalog failure included) leaves BookingHistory untouched,
so the failure precedes every history insert. -/
theorem claim_C4_roomCatalogCheck :
    (∀ t : List RoomRow,
      List.Sorted (fun a b => a < b) (missingRoomIds t) ∧
      (∀ i : Int, i ∈ missingRoomIds t ↔ i ∈ catalogIds ∧ ∀ r ∈ t, r.id ≠ i)) ∧
    (∀ t : List RoomRow, (∃ i ∈ catalogIds, ∀ r ∈ t, r.id ≠ i) →
      roomCatalogCheck t = .error (.missingRooms (missingRoomIds t))) ∧
    (∀ t : List RoomRow, (∀ i ∈ catalogIds, ∃ r ∈ t, r.id = i) →
      roomCatalogCheck t = .ok ()) ∧
    (∀ (st : SettingsM) (s : DBState) (e : SeedErr),
      (seedSyntheticData st s).2 = .error e →
      (seedSyntheticData st s).1.history = s.history) := by
  refine ⟨?_, ?_, ?_, ?_⟩
  · intro t
    refine ⟨?_, mem_missingRoomIds t⟩
    unfold missingRoomIds
    exact List.Pairwise.filter _ (by decide)
  · rintro t ⟨i, hi, hno⟩
    have hmem : i ∈ missingRoomIds t := (mem_missingRoomIds t i).mpr ⟨hi, hno⟩
    have hne : missingRoomIds t ≠ [] := by
      intro h0
      rw [h0] at hmem
      exact absurd hmem (List.not_mem_nil i)
    unfold roomCatalogCheck
    rw [if_pos hne]
  · intro t hall
    have h0 : missingRoomIds t = [] := by
      apply List.eq_nil_iff_forall_not_mem.mpr
      intro i hi
      obtain ⟨hc, hno⟩ := (mem_missingRoomIds t i).mp hi
      obtain ⟨r, hr, hri⟩ := hall i hc
      exact hno r hr hri
    unfold roomCatalogCheck
    rw [h0]
    simp
  · intro st s e h
    unfold seedSyntheticData at h ⊢
    cases hv : validateSyntheticConfiguration st with
    | error e2 => rfl
    | ok u =>
      rw [hv] at h
      cases hl : loadSyntheticRowsT st (ensureSyntheticDatasetExists st s.importFile) with
      | error e2 => rfl
      | ok rows =>
        rw [hl] at h
        unfold seedInsertPhase at h ⊢
        cases hc : seedRoomCatalog
            { s with importFile := some (ensureSyntheticDatasetExists st s.importFile) }.rooms with
        | error e2 => rfl
        | ok rooms2 =>
          rw [hc] at h
          exact absurd h (by simp)

/-- C4 witness: on an empty Rooms table the check fails naming all ten
catalog ids; after the ignore-on-conflict insert into the empty table all
ten are persisted and the check passes; a failing seed run (non-positive
day count) leaves history unchanged. -/
theorem claim_C4_witness :
    ((∃ i ∈ catalogIds, ∀ r ∈ ([] : List RoomRow), r.id ≠ i) ∧
      roomCatalogCheck [] = .error (.missingRooms (missingRoomIds [])) ∧
      missingRoomIds [] = [1, 2, 3, 4, 5, 6, 7, 8, 9, 10]) ∧
    ((∀ i ∈ catalogIds, ∃ r ∈ insertOrIgnoreRooms [], r.id = i) ∧
      roomCatalogCheck (insertOrIgnoreRooms []) = .ok ()) ∧
    ((seedSyntheticData zeroDaySettings emptyDB).2 =
        .error (.config .nonPositiveSeedDays) ∧
      (seedSyntheticData zeroDaySettings emptyDB).1.history = emptyDB.history) := by
  refine ⟨⟨?_, ?_, by decide⟩, ⟨?_, ?_⟩, ⟨by decide, ?_⟩⟩
  · exact ⟨1, by decide, fun r hr => absurd hr (List.not_mem_nil r)⟩
  · exact claim_C4_roomCatalogCheck.2.1 []
      ⟨1, by decide, fun r hr => absurd hr (List.not_mem_nil r)⟩
  · decide
  · exact claim_C4_roomCatalogCheck.2.2.1 (insertOrIgnoreRooms []) (by decide)
  · exact claim_C4_roomCatalogCheck.2.2.2 zeroDaySettings emptyDB
      (.config .nonPositiveSeedDays) (by decide)

/-! ## C7: the duplicate-row DELETE of initialize_database -/

/-- Under unique surrogate ids, a row is kept by the per-key MIN(id) DELETE
iff its id is the smallest among the rows sharing its key. -/
theorem mem_dedupeHistory (h : List (Nat × HistRow))
    (hnd : (historyIds h).Nodup) (p : Nat × HistRow) :
    p ∈ dedupeHistory h ↔
      p ∈ h ∧ ∀ q ∈ h, historyKey q.2 = historyKey p.2 → p.1 ≤ q.1 := by
  unfold dedupeHistory isGroupMinId
  rw [List.mem_filter]
  simp only [List.any_eq_true, decide_eq_true_eq]
  constructor
  · rintro ⟨hp, q, hq, hmin⟩
    rw [List.min?_eq_some_iff'] at hmin
    obtain ⟨hmem, hle⟩ := hmin
    rw [List.mem_map] at hmem
    obtain ⟨r, hr, hr1⟩ := hmem
    rw [List.mem_filter] at hr
    have hrp : r = p :=
      List.inj_on_of_nodup_map hnd hr.1 hp hr1
    have hkey : historyKey p.2 = historyKey q.2 := by
      rw [← hrp]
      exact of_decide_eq_true hr.2
    refine ⟨hp, ?_⟩
    intro q2 hq2 hkq2
    apply hle
    rw [List.mem_map]
    refine ⟨q2, ?_, rfl⟩
    rw [List.mem_filter]
    exact ⟨hq2, decide_eq_true (by rw [hkq2, hkey])⟩
  · rintro ⟨hp, hmin⟩
    refine ⟨hp, p, hp, ?_⟩
    rw [List.min?_eq_some_iff']
    constructor
    · rw [List.mem_map]
      refine ⟨p, ?_, rfl⟩
      rw [List.mem_filter]
      exact ⟨hp, decide_eq_true rfl⟩
    · intro b hb
      rw [List.mem_map] at hb
      obtain ⟨r, hr, hr1⟩ := hb
      rw [List.mem_filter] at hr
      rw [← hr1]
      exact hmin r hr.1 (of_decide_eq_true hr.2)

/-- C7 (confirmed): on every pre-existing BookingHistory state with unique
surrogate ids, initialize_database keeps among the rows sharing one
(room_id, date, time_slot) key exactly the row with the smallest id, keeps
every row whose key is unique, deletes nothing else (the result is a
sublist), leaves the key unique over the table afterwards, and records the
unique index as created; the DELETE is the only change to the history and
the other tables are untouched. -/
theorem claim_C7_initDatabase_dedupe (s : DBState)
    (hnd : (historyIds s.history).Nodup) :
    (initDatabase s).bookingUniqueIndex = true ∧
    (∀ p, p ∈ (initDatabase s).history ↔
      p ∈ s.history ∧ ∀ q ∈ s.history, historyKey q.2 = historyKey p.2 → p.1 ≤ q.1) ∧
    (∀ p ∈ s.history, (∀ q ∈ s.history, historyKey q.2 = historyKey p.2 → q = p) →
      p ∈ (initDatabase s).history) ∧
    (historyKeys ((initDatabase s).history)).Nodup ∧
    (initDatabase s).history.Sublist s.history ∧
    (initDatabase s).rooms = s.rooms ∧
    (initDatabase s).requests = s.requests ∧
    (initDatabase s).predictions = s.predictions ∧
    (initDatabase s).importFile = s.importFile := by
  have hmemc : ∀ p, p ∈ dedupeHistory s.history ↔
      p ∈ s.history ∧ ∀ q ∈ s.history, historyKey q.2 = historyKey p.2 → p.1 ≤ q.1 :=
    mem_dedupeHistory s.history hnd
  refine ⟨rfl, hmemc, ?_, ?_, ?_, rfl, rfl, rfl, rfl⟩
  · intro p hp huniq
    exact (hmemc p).mpr ⟨hp, fun q hq hkq => by rw [huniq q hq hkq]⟩
  · have hpw : List.Pairwise (fun a b : Nat × HistRow => a.1 ≠ b.1)
        (dedupeHistory s.history) :=
      List.Pairwise.filter _ (List.pairwise_map.mp hnd)
    have hkeys : List.Pairwise
        (fun a b : Nat × HistRow => historyKey a.2 ≠ historyKey b.2)
        (dedupeHistory s.history) := by
      refine hpw.imp_of_mem ?_
      intro a b ha hb hne hkeq
      have haa := (hmemc a).mp ha
      have hbb := (hmemc b).mp hb
      have h1 : a.1 ≤ b.1 := haa.2 b hbb.1 hkeq.symm
      have h2 : b.1 ≤ a.1 := hbb.2 a haa.1 hkeq
      exact hne (Nat.le_antisymm h1 h2)
    exact List.pairwise_map.mpr hkeys
  · exact List.filter_sublist _

/-- C7 witness: a concrete table where ids 1 and 2 share a key and id 3 is
unique: ids are unique, the migration keeps ids 1 and 3 and the key becomes
unique, with the unique index recorded as created. -/
theorem claim_C7_witness :
    (historyIds dupHistDB.history).Nodup ∧
    (historyKeys ((initDatabase dupHistDB).history)).Nodup ∧
    (initDatabase dupHistDB).bookingUniqueIndex = true ∧
    ((2, { room_id := 1, date := 0, time_slot := "09-11", occupied := 0 }) ∈
        (initDatabase dupHistDB).history ↔
      (2, { room_id := 1, date := 0, time_slot := "09-11", occupied := 0 }) ∈
          dupHistDB.history ∧
        ∀ q ∈ dupHistDB.history,
          historyKey q.2 = historyKey
            { room_id := 1, date := 0, time_slot := "09-11", occupied := 0 } →
          2 ≤ q.1) :=
  ⟨by decide,
   (claim_C7_initDatabase_dedupe dupHistDB (by decide)).2.2.2.1,
   (claim_C7_initDatabase_dedupe dupHistDB (by decide)).1,
   (claim_C7_initDatabase_dedupe dupHistDB (by decide)).2.1
     (2, { room_id := 1, date := 0, time_slot := "09-11", occupied := 0 })⟩

/-! ## C6: list_idle_predictions -/

/-- A successful primary-key lookup returns a stored pair. -/
theorem mem_of_lookup_eq_some {β : Type} {l : List (Nat × β)} {i : Nat} {b : β}
    (h : List.lookup i l = some b) : (i, b) ∈ l := by
  induction l with
  | nil => simp [List.lookup] at h
  | cons p l ih =>
    obtain ⟨a, v⟩ := p
    by_cases hi : i = a
    · subst hi
      simp only [List.lookup_cons, beq_self_eq_true] at h
      injection h with h
      subst h
      exact List.mem_cons_self ..
    · simp only [List.lookup_cons, beq_false_of_ne hi] at h
      exact List.mem_cons_of_mem _ (ih h)

/-- Under unique primary keys, looking a stored pair up finds exactly it. -/
theorem lookup_eq_some_of_mem_nodup {β : Type} {l : List (Nat × β)} {i : Nat} {b : β}
    (hnd : (l.map Prod.fst).Nodup) (h : (i, b) ∈ l) : List.lookup i l = some b := by
  induction l with
  | nil => exact absurd h (List.not_mem_nil _)
  | cons p l ih =>
    obtain ⟨a, v⟩ := p
    rw [List.map_cons, List.nodup_cons] at hnd
    rcases List.mem_cons.mp h with heq | hmem
    · injection heq with h1 h2
      subst h1; subst h2
      simp [List.lookup_cons]
    · have hne : i ≠ a := by
        intro hc
        subst hc
        exact hnd.1 (List.mem_map.mpr ⟨(i, b), hmem, rfl⟩)
      simp only [List.lookup_cons, beq_false_of_ne hne]
      exact ih hnd.2 hmem

/-- Every row of the latest-per-room join is a stored matching row whose
surrogate id dominates every stored matching row of its room. -/
theorem mem_idleJoined {preds : List (Nat × PredRow)} {date time_slot : String}
    (hnd : (preds.map Prod.fst).Nodup) (p : PredRow)
    (hp : p ∈ idleJoined preds date time_slot) :
    ∃ i, (i, p) ∈ preds ∧ p.date = date ∧ p.time_slot = time_slot ∧
      ∀ jq ∈ preds, jq.2.date = date → jq.2.time_slot = time_slot →
        jq.2.room_id = p.room_id → jq.1 ≤ i := by
  unfold idleJoined at hp
  rw [List.mem_filterMap] at hp
  obtain ⟨r, _, hfr⟩ := hp
  cases hmax : predMaxIdForRoom preds date time_slot r with
  | none => rw [hmax] at hfr; exact absurd hfr (by simp)
  | some mid =>
    rw [hmax] at hfr
    have hlk : List.lookup mid preds = some p := hfr
    have hmidp : (mid, p) ∈ preds := mem_of_lookup_eq_some hlk
    unfold predMaxIdForRoom at hmax
    rw [List.max?_eq_some_iff'] at hmax
    obtain ⟨hmem, hmax2⟩ := hmax
    rw [List.mem_map] at hmem
    obtain ⟨rq, hrq, hrq1⟩ := hmem
    rw [List.mem_filter] at hrq
    obtain ⟨hrqf, hrqr⟩ := hrq
    unfold predFiltered at hrqf
    rw [List.mem_filter] at hrqf
    obtain ⟨hrqmem, hrqds⟩ := hrqf
    have hprq : p = rq.2 := by
      have : (mid, p) = rq := by
        apply List.inj_on_of_nodup_map hnd hmidp hrqmem
        rw [hrq1]
      rw [← this]
    have hds : p.date = date ∧ p.time_slot = time_slot := by
      rw [hprq]
      exact of_decide_eq_true hrqds
    have hroom : p.room_id = r := by
      rw [hprq]
      exact of_decide_eq_true hrqr
    refine ⟨mid, hmidp, hds.1, hds.2, ?_⟩
    intro jq hjq hjd hjt hjr
    apply hmax2
    rw [List.mem_map]
    refine ⟨jq, ?_, rfl⟩
    rw [List.mem_filter]
    constructor
    · unfold predFiltered
      rw [List.mem_filter]
      exact ⟨hjq, decide_eq_true (by exact ⟨hjd, hjt⟩)⟩
    · exact decide_eq_true (by rw [hjr, hroom])

/-- Every stored matching row has a representative of its room in the
latest-per-room join. -/
theorem room_covered_idleJoined {preds : List (Nat × PredRow)}
    {date time_slot : String} (hnd : (preds.map Prod.fst).Nodup)
    (jq : Nat × PredRow) (hjq : jq ∈ preds) (hjd : jq.2.date = date)
    (hjt : jq.2.time_slot = time_slot) :
    ∃ p ∈ idleJoined preds date time_slot, p.room_id = jq.2.room_id := by
  have hjf : jq ∈ predFiltered preds date time_slot := by
    unfold predFiltered
    rw [List.mem_filter]
    exact ⟨hjq, decide_eq_true ⟨hjd, hjt⟩⟩
  have hr : jq.2.room_id ∈
      ((predFiltered preds date time_slot).map fun p => p.2.room_id).dedup := by
    rw [List.mem_dedup, List.mem_map]
    exact ⟨jq, hjf, rfl⟩
  cases hmax : predMaxIdForRoom preds date time_slot jq.2.room_id with
  | none =>
    unfold predMaxIdForRoom at hmax
    rw [List.max?_eq_none_iff, List.map_eq_nil_iff, List.filter_eq_nil_iff] at hmax
    exact absurd (decide_eq_true rfl) (hmax jq hjf)
  | some mid =>
    have hmem := hmax
    unfold predMaxIdForRoom at hmem
    rw [List.max?_eq_some_iff'] at hmem
    obtain ⟨hmem, _⟩ := hmem
    rw [List.mem_map] at hmem
    obtain ⟨rq, hrq, hrq1⟩ := hmem
    rw [List.mem_filter] at hrq
    obtain ⟨hrqf, hrqr⟩ := hrq
    have hrqmem : rq ∈ preds := by
      have := hrqf
      unfold predFiltered at this
      exact (List.mem_filter.mp this).1
    refine ⟨rq.2, ?_, of_decide_eq_true hrqr⟩
    unfold idleJoined
    rw [List.mem_filterMap]
    refine ⟨jq.2.room_id, hr, ?_⟩
    rw [hmax]
    show List.lookup mid preds = some rq.2
    rw [← hrq1]
    exact lookup_eq_some_of_mem_nodup hnd (by rw [hrq1, ← hrq1]; exact hrqmem)

/-- The row joined back for a grouped room carries that room id. -/
theorem idleJoined_room_of_eq {preds : List (Nat × PredRow)} {date time_slot : String}
    (hnd : (preds.map Prod.fst).Nodup) (r : Int) (v : PredRow)
    (h : (match predMaxIdForRoom preds date time_slot r with
          | none => none
          | some mid => preds.lookup mid) = some v) : v.room_id = r := by
  cases hmax : predMaxIdForRoom preds date time_slot r with
  | none => rw [hmax] at h; exact absurd h (by simp)
  | some mid =>
    rw [hmax] at h
    have hmem : (mid, v) ∈ preds := mem_of_lookup_eq_some h
    unfold predMaxIdForRoom at hmax
    rw [List.max?_eq_some_iff'] at hmax
    obtain ⟨hmm, _⟩ := hmax
    rw [List.mem_map] at hmm
    obtain ⟨rq, hrq, hrq1⟩ := hmm
    rw [List.mem_filter] at hrq
    have hrqmem : rq ∈ preds := by
      have := hrq.1
      unfold predFiltered at this
      exact (List.mem_filter.mp this).1
    have : (mid, v) = rq := by
      apply List.inj_on_of_nodup_map hnd hmem hrqmem
      rw [hrq1]
    rw [show v = rq.2 by rw [← this]]
    exact of_decide_eq_true hrq.2

/-- The rooms of the joined rows are pairwise distinct: the grouped rooms
are deduplicated and each joined row carries its group room id. -/
theorem nodup_rooms_idleJoined {preds : List (Nat × PredRow)} {date time_slot : String}
    (hnd : (preds.map Prod.fst).Nodup) :
    ((idleJoined preds date time_slot).map (fun p => p.room_id)).Nodup := by
  unfold idleJoined
  have hf : ∀ (r : Int) (v : PredRow),
      (match predMaxIdForRoom preds date time_slot r with
        | none => none
        | some mid => preds.lookup mid) = some v → v.room_id = r :=
    idleJoined_room_of_eq hnd
  generalize hrs : ((predFiltered preds date time_slot).map fun p => p.2.room_id).dedup = rs
  have hrsnd : rs.Nodup := by rw [← hrs]; exact List.nodup_dedup _
  clear hrs
  induction rs with
  | nil => simp
  | cons r rs ih =>
    rw [List.nodup_cons] at hrsnd
    cases hfr : (match predMaxIdForRoom preds date time_slot r with
        | none => none
        | some mid => preds.lookup mid) with
    | none =>
      simp only [List.filterMap_cons, hfr]
      exact ih hrsnd.2
    | some v =>
      simp only [List.filterMap_cons, hfr]
      rw [List.map_cons, List.nodup_cons]
      constructor
      · intro hcon
        rw [List.mem_map] at hcon
        obtain ⟨w, hw, hwr⟩ := hcon
        rw [List.mem_filterMap] at hw
        obtain ⟨r2, hr2, hfw⟩ := hw
        have hwroom : w.room_id = r2 := hf r2 w hfw
        have hvroom : v.room_id = r := hf r v hfr
        rw [hvroom, hwroom] at hwr
        exact hrsnd.1 (hwr ▸ hr2)
      · exact ih hrsnd.2

/-- C6 (confirmed): under unique Predictions surrogate ids, the latest-wins
read returns at most one row per room, ordered by room ascending; every
returned row is a stored row matching the requested date and slot whose
surrogate id dominates all stored matching rows of its room (so its
idle_probability is that of the max-id row); every matching room is
represented; and after two save_prediction calls for the same
(room, date, slot) with different probabilities, only the later value is
returned for that room. -/
theorem claim_C6_listIdlePredictions :
    (∀ (s : DBState) (date time_slot : String),
      (s.predictions.map Prod.fst).Nodup →
      (∀ r : Int,
        List.countP (fun p => decide (p.room_id = r))
          (listIdlePredictions s date time_slot) ≤ 1) ∧
      List.Sorted (fun a b : PredRow => a.room_id ≤ b.room_id)
        (listIdlePredictions s date time_slot) ∧
      (∀ p ∈ listIdlePredictions s date time_slot,
        ∃ i, (i, p) ∈ s.predictions ∧ p.date = date ∧ p.time_slot = time_slot ∧
          ∀ jq ∈ s.predictions, jq.2.date = date → jq.2.time_slot = time_slot →
            jq.2.room_id = p.room_id → jq.1 ≤ i) ∧
      (∀ jq ∈ s.predictions, jq.2.date = date → jq.2.time_slot = time_slot →
        ∃ p ∈ listIdlePredictions s date time_slot, p.room_id = jq.2.room_id)) ∧
    (∀ (s : DBState) (room : Int) (d t : String) (q1 q2 : ℚ) (s1 s2 : DBState),
      (s.predictions.map Prod.fst).Nodup →
      (∀ ip ∈ s.predictions, ip.1 < s.nextPredictionId) →
      q1 ≠ q2 →
      savePrediction s room d t q1 = some s1 →
      savePrediction s1 room d t q2 = some s2 →
      ∀ p ∈ listIdlePredictions s2 d t, p.room_id = room →
        p.idle_probability = q2 ∧ p.idle_probability ≠ q1) := by
  have hs10 : ∀ (preds : List (Nat × PredRow)) (date time_slot : String),
      (preds.map Prod.fst).Nodup →
      ∀ p ∈ List.insertionSort (fun a b : PredRow => a.room_id ≤ b.room_id)
          (idleJoined preds date time_slot),
        ∃ i, (i, p) ∈ preds ∧ p.date = date ∧ p.time_slot = time_slot ∧
          ∀ jq ∈ preds, jq.2.date = date → jq.2.time_slot = time_slot →
            jq.2.room_id = p.room_id → jq.1 ≤ i := by
    intro preds date time_slot hnd p hp
    exact mem_idleJoined hnd p ((List.perm_insertionSort _ _).mem_iff.mp hp)
  constructor
  · intro s date time_slot hnd
    haveI htot : IsTotal PredRow (fun a b => a.room_id ≤ b.room_id) :=
      ⟨fun a b => le_total a.room_id b.room_id⟩
    haveI htrans : IsTrans PredRow (fun a b => a.room_id ≤ b.room_id) :=
      ⟨fun _ _ _ hab hbc => le_trans hab hbc⟩
    refine ⟨?_, List.sorted_insertionSort _ _, hs10 s.predictions date time_slot hnd, ?_⟩
    · intro r
      have hperm : (listIdlePredictions s date time_slot).Perm
          (idleJoined s.predictions date time_slot) :=
        List.perm_insertionSort _ _
      rw [hperm.countP_eq]
      have hcnt : List.countP (fun p => decide (p.room_id = r))
          (idleJoined s.predictions date time_slot) =
          List.count r ((idleJoined s.predictions date time_slot).map
            (fun p => p.room_id)) := by
        rw [List.count, List.countP_map]
        apply List.countP_congr
        intro a _
        by_cases h : a.room_id = r <;> simp [h]
      rw [hcnt]
      exact List.nodup_iff_count_le_one.mp (nodup_rooms_idleJoined hnd) r
    · intro jq hjq hjd hjt
      obtain ⟨p, hp, hpr⟩ := room_covered_idleJoined hnd jq hjq hjd hjt
      exact ⟨p, (List.perm_insertionSort _ _).mem_iff.mpr hp, hpr⟩
  · intro s room d t q1 q2 s1 s2 hnd hfresh hq hs1 hs2
    unfold savePrediction at hs1 hs2
    by_cases hroom : room ∈ roomIds s.rooms
    · rw [if_pos hroom] at hs1
      injection hs1 with hs1
      subst hs1
      rw [if_pos hroom] at hs2
      injection hs2 with hs2
      subst hs2
      intro p hp hpr
      have hnd2 : ((((s.predictions ++
          [(s.nextPredictionId,
            ({ room_id := room, date := d, time_slot := t, idle_probability := q1 } :
              PredRow))]) ++
          [(s.nextPredictionId + 1,
            ({ room_id := room, date := d, time_slot := t, idle_probability := q2 } :
              PredRow))]).map
          Prod.fst)).Nodup := by
        have hmap : (((s.predictions ++
            [(s.nextPredictionId,
              ({ room_id := room, date := d, time_slot := t, idle_probability := q1 } :
                PredRow))]) ++
            [(s.nextPredictionId + 1,
              ({ room_id := room, date := d, time_slot := t, idle_probability := q2 } :
                PredRow))]).map Prod.fst) =
            (s.predictions.map Prod.fst) ++ [s.nextPredictionId, s.nextPredictionId + 1] := by
          simp
        rw [hmap, List.nodup_append]
        refine ⟨hnd, by simp, ?_⟩
        intro a ha hb
        rw [List.mem_map] at ha
        obtain ⟨ip, hip, hipa⟩ := ha
        have hlt := hfresh ip hip
        simp only [List.mem_cons, List.not_mem_nil, or_false] at hb
        rcases hb with hb | hb <;> omega
      obtain ⟨i, hip, hpd, hpt, hmax⟩ := hs10 _ d t hnd2 p hp
      have hr2mem : (s.nextPredictionId + 1,
          ({ room_id := room, date := d, time_slot := t, idle_probability := q2 } :
            PredRow)) ∈
          ((s.predictions ++ [(s.nextPredictionId,
            { room_id := room, date := d, time_slot := t, idle_probability := q1 })]) ++
          [(s.nextPredictionId + 1,
            { room_id := room, date := d, time_slot := t, idle_probability := q2 })]) := by
        rw [List.mem_append]
        right
        exact List.mem_singleton.mpr rfl
      have hge : s.nextPredictionId + 1 ≤ i :=
        hmax _ hr2mem rfl rfl (by rw [hpr])
      rcases List.mem_append.mp hip with hin | hin
      · rcases List.mem_append.mp hin with hin | hin
        · have := hfresh _ hin
          omega
        · rw [List.mem_singleton] at hin
          injection hin with h1 h2
          omega
      · rw [List.mem_singleton] at hin
        injection hin with h1 h2
        rw [h2]
        exact ⟨rfl, fun hcon => hq hcon.symm⟩
    · rw [if_neg hroom] at hs1
      exact absurd hs1 (by simp)

/-- C6 witness: with the catalog seeded and two predictions saved for
room 1 on the same (date, slot) with probabilities 1/4 then 3/4, the read
is sorted by room and the row returned for room 1 carries 3/4, not 1/4. -/
theorem claim_C6_witness :
    (predsDB2.predictions.map Prod.fst).Nodup ∧
    List.Sorted (fun a b : PredRow => a.room_id ≤ b.room_id)
      (listIdlePredictions predsDB2 "2026-03-01" "09-11") ∧
    ((predRoomsDB.predictions.map Prod.fst).Nodup ∧
      (∀ ip ∈ predRoomsDB.predictions, ip.1 < predRoomsDB.nextPredictionId) ∧
      mkRat 1 4 ≠ mkRat 3 4 ∧
      savePrediction predRoomsDB 1 "2026-03-01" "09-11" (mkRat 1 4) = some predsDB1 ∧
      savePrediction predsDB1 1 "2026-03-01" "09-11" (mkRat 3 4) = some predsDB2 ∧
      samplePred2 ∈ listIdlePredictions predsDB2 "2026-03-01" "09-11" ∧
      samplePred2.room_id = 1) ∧
    samplePred2.idle_probability = mkRat 3 4 ∧
    samplePred2.idle_probability ≠ mkRat 1 4 := by
  refine ⟨by decide, ?_,
    ⟨by decide, by decide, by decide, by decide, by decide, by decide, by decide⟩, ?_⟩
  · exact (claim_C6_listIdlePredictions.1 predsDB2 "2026-03-01" "09-11" (by decide)).2.1
  · exact claim_C6_listIdlePredictions.2 predRoomsDB 1 "2026-03-01" "09-11"
      (mkRat 1 4) (mkRat 3 4) predsDB1 predsDB2 (by decide) (by decide) (by decide)
      (by decide) (by decide) samplePred2 (by decide) (by decide)

/-! ## C2: the textual loader -/

/-- Every error of the per-line checks carries the line it was raised at. -/
theorem checkCsvRow_error_line (st : SettingsM) (line : Nat) (fields : List String)
    (e : LoadErr) (h : checkCsvRow st line fields = .error e) :
    loadErrLine e = some line := by
  unfold checkCsvRow at h
  repeat' split at h
  all_goals
    first
      | (injection h with h; rw [← h]; rfl)
      | exact absurd h (by simp)

/-- A successful loop pass accepts every remaining line. -/
theorem loadCsvRowsLoop_ok_length (st : SettingsM) :
    ∀ (rows : List (List String)) (line : Nat) (seen : List (Int × String × String))
      (acc out : List LoadedRow),
      loadCsvRowsLoop st rows line seen acc = .ok out →
      out.length = acc.length + rows.length := by
  intro rows
  induction rows with
  | nil =>
    intro line seen acc out h
    unfold loadCsvRowsLoop at h
    injection h with h
    simp [← h]
  | cons fields rest ih =>
    intro line seen acc out h
    unfold loadCsvRowsLoop at h
    cases hc : checkCsvRow st line fields with
    | error e => rw [hc] at h; exact absurd h (by simp)
    | ok row =>
      rw [hc] at h
      replace h : (if loadedKey row ∈ seen then Except.error (LoadErr.duplicateKey line)
          else loadCsvRowsLoop st rest (line + 1) (loadedKey row :: seen) (row :: acc)) =
          Except.ok out := h
      by_cases hseen : loadedKey row ∈ seen
      · rw [if_pos hseen] at h
        exact absurd h (by simp)
      · rw [if_neg hseen] at h
        have := ih (line + 1) (loadedKey row :: seen) (row :: acc) out h
        simp only [List.length_cons] at this ⊢
        omega

/-- A failing loop pass fails at one of the remaining lines, with that line
number in the error. -/
theorem loadCsvRowsLoop_error_line (st : SettingsM) :
    ∀ (rows : List (List String)) (line : Nat) (seen : List (Int × String × String))
      (acc : List LoadedRow) (e : LoadErr),
      loadCsvRowsLoop st rows line seen acc = .error e →
      ∃ k, k < rows.length ∧ loadErrLine e = some (line + k) := by
  intro rows
  induction rows with
  | nil =>
    intro line seen acc e h
    unfold loadCsvRowsLoop at h
    exact absurd h (by simp)
  | cons fields rest ih =>
    intro line seen acc e h
    unfold loadCsvRowsLoop at h
    cases hc : checkCsvRow st line fields with
    | error e2 =>
      rw [hc] at h
      injection h with h
      refine ⟨0, by simp, ?_⟩
      rw [← h]
      simpa using checkCsvRow_error_line st line fields e2 hc
    | ok row =>
      rw [hc] at h
      replace h : (if loadedKey row ∈ seen then Except.error (LoadErr.duplicateKey line)
          else loadCsvRowsLoop st rest (line + 1) (loadedKey row :: seen) (row :: acc)) =
          Except.error e := h
      by_cases hseen : loadedKey row ∈ seen
      · rw [if_pos hseen] at h
        injection h with h
        refine ⟨0, by simp, ?_⟩
        rw [← h]
        simp [loadErrLine]
      · rw [if_neg hseen] at h
        obtain ⟨k, hk, hline⟩ := ih (line + 1) (loadedKey row :: seen) (row :: acc) e h
        refine ⟨k + 1, by simpa using Nat.succ_lt_succ hk, ?_⟩
        rw [hline]
        congr 1
        omega

/-- A loop pass over lines that all check out, with pairwise distinct keys
not yet seen, accepts everything in order. -/
theorem loadCsvRowsLoop_all_ok (st : SettingsM) :
    ∀ (rows : List (List String)) (parsed : List LoadedRow) (line : Nat)
      (seen : List (Int × String × String)) (acc : List LoadedRow),
      parsed.length = rows.length →
      (∀ k (hk : k < rows.length) (hk2 : k < parsed.length),
        checkCsvRow st (line + k) (rows.get ⟨k, hk⟩) = .ok (parsed.get ⟨k, hk2⟩)) →
      (∀ key ∈ parsed.map loadedKey, key ∉ seen) →
      (parsed.map loadedKey).Nodup →
      loadCsvRowsLoop st rows line seen acc = .ok (acc.reverse ++ parsed) := by
  intro rows
  induction rows with
  | nil =>
    intro parsed line seen acc hlen _ _ _
    rw [List.length_nil, List.length_eq_zero] at hlen
    subst hlen
    unfold loadCsvRowsLoop
    simp
  | cons fields rest ih =>
    intro parsed line seen acc hlen hok hfresh hnd
    cases parsed with
    | nil => simp at hlen
    | cons row prest =>
      have h0 : checkCsvRow st line fields = Except.ok row :=
        hok 0 (by simp) (by simp)
      unfold loadCsvRowsLoop
      rw [h0]
      rw [List.map_cons, List.nodup_cons] at hnd
      have hkey : loadedKey row ∉ seen := by
        apply hfresh
        simp
      show (if loadedKey row ∈ seen then Except.error (LoadErr.duplicateKey line)
          else loadCsvRowsLoop st rest (line + 1) (loadedKey row :: seen) (row :: acc)) =
        Except.ok (acc.reverse ++ row :: prest)
      rw [if_neg hkey]
      have hres := ih prest (line + 1) (loadedKey row :: seen) (row :: acc)
        (by simpa using hlen) ?_ ?_ hnd.2
      · rw [hres]
        simp
      · intro k hk hk2
        have := hok (k + 1) (by simpa using Nat.succ_lt_succ hk)
          (by simpa using Nat.succ_lt_succ hk2)
        simp only [List.get_cons_succ] at this
        rw [show line + 1 + k = line + (k + 1) by omega]
        exact this
      · intro key hkeymem
        rw [List.mem_cons, not_or]
        constructor
        · intro hcon
          rw [hcon] at hkeymem
          exact hnd.1 hkeymem
        · apply hfresh
          rw [List.map_cons, List.mem_cons]
          right
          exact hkeymem

/-- An accepted load has exactly the expected row count and accepted every
line of the file. -/
theorem loadCsv_ok_lengths (st : SettingsM) (f : CsvFile) :
    ∀ rows, loadSyntheticRowsFromCsv st f = .ok rows →
      rows.length = expectedSyntheticRowCount st ∧ rows.length = f.rows.length := by
  intro rows h
  unfold loadSyntheticRowsFromCsv at h
  by_cases hh : f.header ≠ SYNTHETIC_COLUMNS
  · rw [if_pos hh] at h
    exact absurd h (by simp)
  · rw [if_neg hh] at h
    cases hl : loadCsvRowsLoop st f.rows 2 [] [] with
    | error e => rw [hl] at h; exact absurd h (by simp)
    | ok out =>
      rw [hl] at h
      replace h : (if out.length ≠ expectedSyntheticRowCount st then
          Except.error (LoadErr.wrongCount (expectedSyntheticRowCount st) out.length)
        else Except.ok out) = Except.ok rows := h
      by_cases hcnt : out.length ≠ expectedSyntheticRowCount st
      · rw [if_pos hcnt] at h
        exact absurd h (by simp)
      · rw [if_neg hcnt] at h
        injection h with h
        subst h
        have hlen := loadCsvRowsLoop_ok_length st f.rows 2 [] [] out hl
        simp only [List.length_nil, Nat.zero_add] at hlen
        exact ⟨by omega, hlen⟩

/-- C2 (amended): the textual loader either accepts every data line and
returns the complete row list whose length equals the expected product
(catalog size x seed days x slot count), or fails with an error that
carries the offending line number (a line in range of the file), or is the
whole-file count error, or is the whole-file header error; a file whose
line count differs from the expected product is never accepted, even when
every individual line is valid and duplicate-free, in which case the
failure is precisely the count error. -/
theorem claim_C2_loadSyntheticRowsFromCsv (st : SettingsM) (f : CsvFile) :
    (∀ rows, loadSyntheticRowsFromCsv st f = .ok rows →
      rows.length = expectedSyntheticRowCount st ∧ rows.length = f.rows.length) ∧
    (∀ e, loadSyntheticRowsFromCsv st f = .error e →
      (∃ line, loadErrLine e = some line ∧ 2 ≤ line ∧ line < 2 + f.rows.length) ∨
      isCountErr e = true ∨ e = .badHeader) ∧
    (f.rows.length ≠ expectedSyntheticRowCount st →
      ∀ rows, loadSyntheticRowsFromCsv st f ≠ .ok rows) ∧
    (∀ parsed : List LoadedRow,
      f.header = SYNTHETIC_COLUMNS →
      parsed.length = f.rows.length →
      (∀ k (hk : k < f.rows.length) (hk2 : k < parsed.length),
        checkCsvRow st (2 + k) (f.rows.get ⟨k, hk⟩) = .ok (parsed.get ⟨k, hk2⟩)) →
      (parsed.map loadedKey).Nodup →
      f.rows.length ≠ expectedSyntheticRowCount st →
      loadSyntheticRowsFromCsv st f =
        .error (.wrongCount (expectedSyntheticRowCount st) f.rows.length)) := by
  refine ⟨loadCsv_ok_lengths st f, ?_, ?_, ?_⟩
  · intro e h
    unfold loadSyntheticRowsFromCsv at h
    by_cases hh : f.header ≠ SYNTHETIC_COLUMNS
    · rw [if_pos hh] at h
      injection h with h
      right; right
      exact h.symm
    · rw [if_neg hh] at h
      cases hl : loadCsvRowsLoop st f.rows 2 [] [] with
      | error e2 =>
        rw [hl] at h
        injection h with h
        subst h
        obtain ⟨k, hk, hline⟩ := loadCsvRowsLoop_error_line st f.rows 2 [] [] e2 hl
        exact Or.inl ⟨2 + k, hline, by omega, by omega⟩
      | ok out =>
        rw [hl] at h
        replace h : (if out.length ≠ expectedSyntheticRowCount st then
            Except.error (LoadErr.wrongCount (expectedSyntheticRowCount st) out.length)
          else Except.ok out) = Except.error e := h
        by_cases hcnt : out.length ≠ expectedSyntheticRowCount st
        · rw [if_pos hcnt] at h
          injection h with h
          subst h
          right; left
          rfl
        · rw [if_neg hcnt] at h
          exact absurd h (by simp)
  · intro hne rows h
    obtain ⟨h1, h2⟩ := loadCsv_ok_lengths st f rows h
    omega
  · intro parsed hheader hlen hok hnd hne
    unfold loadSyntheticRowsFromCsv
    rw [if_neg (by rw [hheader]; exact fun hcon => hcon rfl)]
    have hloop := loadCsvRowsLoop_all_ok st f.rows parsed 2 [] []
      hlen hok (by simp) hnd
    rw [hloop]
    show (if parsed.length ≠ expectedSyntheticRowCount st then
        Except.error (LoadErr.wrongCount (expectedSyntheticRowCount st) parsed.length)
      else Except.ok parsed) =
      Except.error (LoadErr.wrongCount (expectedSyntheticRowCount st) f.rows.length)
    rw [if_pos (by omega)]
    rw [hlen]

/-- A valid import file for a one-day, one-slot configuration: ten lines,
one per catalog room. -/
def sampleCsvOk : CsvFile :=
  { header := SYNTHETIC_COLUMNS
    rows :=
      [ ["1", "2026-02-21", "09-11", "1"],
        ["2", "2026-02-21", "09-11", "0"],
        ["3", "2026-02-21", "09-11", "1"],
        ["4", "2026-02-21", "09-11", "0"],
        ["5", "2026-02-21", "09-11", "1"],
        ["6", "2026-02-21", "09-11", "0"],
        ["7", "2026-02-21", "09-11", "1"],
        ["8", "2026-02-21", "09-11", "0"],
        ["9", "2026-02-21", "09-11", "1"],
        ["10", "2026-02-21", "09-11", "0"] ] }

/-- The parse of sampleCsvOk. -/
def sampleParsedOk : List LoadedRow :=
  [ { room_id := 1, date := "2026-02-21", time_slot := "09-11", occupied := 1 },
    { room_id := 2, date := "2026-02-21", time_slot := "09-11", occupied := 0 },
    { room_id := 3, date := "2026-02-21", time_slot := "09-11", occupied := 1 },
    { room_id := 4, date := "2026-02-21", time_slot := "09-11", occupied := 0 },
    { room_id := 5, date := "2026-02-21", time_slot := "09-11", occupied := 1 },
    { room_id := 6, date := "2026-02-21", time_slot := "09-11", occupied := 0 },
    { room_id := 7, date := "2026-02-21", time_slot := "09-11", occupied := 1 },
    { room_id := 8, date := "2026-02-21", time_slot := "09-11", occupied := 0 },
    { room_id := 9, date := "2026-02-21", time_slot := "09-11", occupied := 1 },
    { room_id := 10, date := "2026-02-21", time_slot := "09-11", occupied := 0 } ]

/-- A one-day, one-slot configuration, so the expected row count is 10. -/
def tinySettings : SettingsM :=
  { sampleSettings with
      synthetic_seed_days := 1
      synthetic_time_slots := ["09-11"] }

/-- C2 counterexample: a file whose header names its third field slot
instead of time_slot is rejected with the header error, which carries no
line number and is not the whole-file count error — refuting the claim
as stated, which allows only line-numbered errors and the count error. -/
theorem claim_C2_counterexample :
    loadSyntheticRowsFromCsv sampleSettings
      { header := ["room_id", "date", "slot", "occupied"], rows := [] } =
      .error LoadErr.badHeader ∧
    loadErrLine LoadErr.badHeader = none ∧
    isCountErr LoadErr.badHeader = false := by
  refine ⟨?_, rfl, rfl⟩
  decide

/-- C2 witness: a ten-line valid file for the one-day, one-slot
configuration loads completely with the expected count, and the empty file
(count 0, expected 10) is rejected with precisely the whole-file count
error even though it has no invalid line. -/
theorem claim_C2_witness :
    (loadSyntheticRowsFromCsv tinySettings sampleCsvOk = .ok sampleParsedOk ∧
      sampleParsedOk.length = expectedSyntheticRowCount tinySettings ∧
      sampleParsedOk.length = sampleCsvOk.rows.length) ∧
    ((⟨SYNTHETIC_COLUMNS, []⟩ : CsvFile).rows.length ≠
        expectedSyntheticRowCount tinySettings ∧
      loadSyntheticRowsFromCsv tinySettings ⟨SYNTHETIC_COLUMNS, []⟩ =
        .error (.wrongCount (expectedSyntheticRowCount tinySettings)
          (⟨SYNTHETIC_COLUMNS, []⟩ : CsvFile).rows.length)) := by
  have hok : loadSyntheticRowsFromCsv tinySettings sampleCsvOk = .ok sampleParsedOk := by
    decide
  refine ⟨⟨hok, ?_, ?_⟩, ⟨by decide, ?_⟩⟩
  · exact ((claim_C2_loadSyntheticRowsFromCsv tinySettings sampleCsvOk).1
      sampleParsedOk hok).1
  · exact ((claim_C2_loadSyntheticRowsFromCsv tinySettings sampleCsvOk).1
      sampleParsedOk hok).2
  · exact (claim_C2_loadSyntheticRowsFromCsv tinySettings ⟨SYNTHETIC_COLUMNS, []⟩).2.2.2
      [] rfl rfl (fun k hk => absurd hk (by simp)) (by decide) (by decide)

/-! ## C8: the generation order of _generate_synthetic_dataset_csv -/

/-- A flatMap whose blocks share one length has the product length. -/
theorem length_flatMap_const {α β : Type} (L : Nat) :
    ∀ (l : List α) (f : α → List β), (∀ a ∈ l, (f a).length = L) →
      (l.flatMap f).length = l.length * L := by
  intro l
  induction l with
  | nil => intro f _; simp
  | cons a l ih =>
    intro f hL
    rw [List.flatMap_cons, List.length_append, ih f fun b hb => hL b (List.mem_cons_of_mem a hb),
      hL a (List.mem_cons_self a l), List.length_cons]
    ring

/-- Indexing into a flatMap of constant-length blocks: block k / L,
position k % L. -/
theorem getD_flatMap_const {α β : Type} (dα : α) (dβ : β) (L : Nat) :
    ∀ (l : List α) (f : α → List β), (∀ a ∈ l, (f a).length = L) →
      ∀ k, k < (l.flatMap f).length →
        (l.flatMap f).getD k dβ = (f (l.getD (k / L) dα)).getD (k % L) dβ := by
  intro l
  induction l with
  | nil => intro f _ k hk; simp at hk
  | cons a l ih =>
    intro f hL k hk
    have hLpos : 0 < L := by
      rcases Nat.eq_zero_or_pos L with h0 | hpos
      · rw [length_flatMap_const L (a :: l) f hL, h0] at hk
        omega
      · exact hpos
    have ha : (f a).length = L := hL a (List.mem_cons_self a l)
    rw [List.flatMap_cons] at hk ⊢
    rw [List.length_append, ha] at hk
    by_cases hkL : k < L
    · rw [List.getD_eq_getElem _ _ (by rw [List.length_append, ha]; omega),
        List.getElem_append_left (by omega),
        Nat.div_eq_of_lt hkL, Nat.mod_eq_of_lt hkL, List.getD_cons_zero,
        List.getD_eq_getElem _ _ (by omega)]
    · have hrest : k - L < (l.flatMap f).length := by omega
      rw [List.getD_eq_getElem _ _ (by rw [List.length_append, ha]; omega),
        List.getElem_append_right (by rw [ha]; omega)]
      simp only [ha]
      rw [← List.getD_eq_getElem (l.flatMap f) dβ hrest,
        ih f (fun b hb => hL b (List.mem_cons_of_mem a hb)) (k - L) hrest]
      have hdiv : k / L = (k - L) / L + 1 := by
        rcases Nat.exists_eq_add_of_le (Nat.le_of_not_lt hkL) with ⟨m, hm⟩
        subst hm
        rw [Nat.add_sub_cancel_left, Nat.add_comm L m, Nat.add_div_right m hLpos]
      have hmod : k % L = (k - L) % L := Nat.mod_eq_sub_mod (Nat.le_of_not_lt hkL)
      rw [hdiv, hmod, List.getD_cons_succ]

/-- getD through a map at an in-range index. -/
theorem getD_map_lt {α β : Type} (f : α → β) (l : List α) (i : Nat)
    (h : i < l.length) (d : β) (da : α) :
    (l.map f).getD i d = f (l.getD i da) := by
  rw [List.getD_eq_getElem _ _ (by simpa using h), List.getD_eq_getElem _ _ h,
    List.getElem_map]

/-- The number of data rows one day contributes. -/
def rowsPerDay (st : SettingsM) : Nat :=
  ROOM_CATALOG.length * st.synthetic_time_slots.length

/-- Each day block of the generation schedule has rowsPerDay entries. -/
theorem genSchedule_inner_length (st : SettingsM) (offset : Nat) :
    (ROOM_CATALOG.flatMap fun room =>
      st.synthetic_time_slots.map fun slot => (offset, room.1, slot)).length =
      rowsPerDay st := by
  rw [length_flatMap_const st.synthetic_time_slots.length ROOM_CATALOG _
    (fun room _ => List.length_map _ _)]
  rfl

/-- The schedule has one entry per (day, room, slot). -/
theorem genSchedule_length (st : SettingsM) :
    (genSchedule st).length = st.synthetic_seed_days * rowsPerDay st := by
  unfold genSchedule
  rw [length_flatMap_const (rowsPerDay st) _ _
    (fun offset _ => genSchedule_inner_length st offset), List.length_range]

/-- The k-th schedule entry: day block k / rowsPerDay, room
(k % rowsPerDay) / slot count, slot k % slot count. -/
theorem genSchedule_getD (st : SettingsM) (k : Nat)
    (hk : k < (genSchedule st).length) :
    (genSchedule st).getD k (0, 0, "") =
      (k / rowsPerDay st,
        (ROOM_CATALOG.getD (k % rowsPerDay st / st.synthetic_time_slots.length)
          (0, "", 0, "", "")).1,
        st.synthetic_time_slots.getD (k % st.synthetic_time_slots.length) "") := by
  have hlen := genSchedule_length st
  have hRpos : 0 < rowsPerDay st := by
    rcases Nat.eq_zero_or_pos (rowsPerDay st) with h0 | hpos
    · rw [hlen, h0] at hk; omega
    · exact hpos
  have hSpos : 0 < st.synthetic_time_slots.length := by
    rcases Nat.eq_zero_or_pos st.synthetic_time_slots.length with h0 | h
    · unfold rowsPerDay at hRpos
      rw [h0, Nat.mul_zero] at hRpos
      omega
    · exact h
  have hkdiv : k / rowsPerDay st < st.synthetic_seed_days :=
    Nat.div_lt_of_lt_mul (by rw [hlen, Nat.mul_comm] at hk; exact hk)
  have hmodR : k % rowsPerDay st < rowsPerDay st := Nat.mod_lt k hRpos
  have hrange : (List.range st.synthetic_seed_days).getD (k / rowsPerDay st) 0 =
      k / rowsPerDay st := by
    rw [List.getD_eq_getElem _ _ (by simpa using hkdiv)]
    exact List.getElem_range _ _
  unfold genSchedule
  rw [getD_flatMap_const 0 (0, 0, "") (rowsPerDay st) _ _
    (fun offset _ => genSchedule_inner_length st offset) k (by exact hk)]
  rw [hrange]
  rw [getD_flatMap_const (0, "", 0, "", "") (0, 0, "") st.synthetic_time_slots.length
    ROOM_CATALOG _ (fun room _ => List.length_map _ _) (k % rowsPerDay st)
    (by rw [genSchedule_inner_length st]; exact hmodR)]
  rw [getD_map_lt _ _ _ (Nat.mod_lt _ hSpos) _ ""]
  rw [Nat.mod_mod_of_dvd k ⟨ROOM_CATALOG.length, by unfold rowsPerDay; ring⟩]

/-- The data row list mirrors the schedule with sequential draw indexes. -/
theorem generateSynthetic_rows_length (st : SettingsM) :
    (generateSyntheticDatasetCsv st).rows.length =
      st.synthetic_seed_days * rowsPerDay st := by
  unfold generateSyntheticDatasetCsv
  rw [List.length_map, List.enum_length, genSchedule_length]

/-- The default row used by the positional characterization. -/
def dfltSynRow : SynRow := { room_id := 0, date := 0, time_slot := "", occupied := 0 }

/-- The k-th generated data row, in closed form. -/
theorem generateSynthetic_rows_getD (st : SettingsM) (k : Nat)
    (hk : k < (generateSyntheticDatasetCsv st).rows.length) :
    (generateSyntheticDatasetCsv st).rows.getD k dfltSynRow =
      { room_id :=
          (ROOM_CATALOG.getD (k % rowsPerDay st / st.synthetic_time_slots.length)
            (0, "", 0, "", "")).1,
        date := startDate st + (k / rowsPerDay st : Nat),
        time_slot :=
          st.synthetic_time_slots.getD (k % st.synthetic_time_slots.length) "",
        occupied :=
          if st.rand k <
              occupiedProbability st (startDate st + (k / rowsPerDay st : Nat)) then 1
          else 0 } := by
  have hk2 : k < (genSchedule st).length := by
    rw [genSchedule_length, ← generateSynthetic_rows_length]
    exact hk
  unfold generateSyntheticDatasetCsv
  rw [List.getD_eq_getElem _ _ (by
      rw [List.length_map, List.enum_length]
      exact hk2),
    List.getElem_map, List.getElem_enum,
    ← List.getD_eq_getElem (genSchedule st) (0, 0, "") hk2,
    genSchedule_getD st k hk2]

/-- A two-day, one-slot configuration. -/
def twoDaySettings : SettingsM :=
  { sampleSettings with
      synthetic_seed_days := 2
      synthetic_time_slots := ["09-11"] }

/-- C8 counterexample: with two seed days, the first data row written
carries the day before the reference date, not the reference date —
refuting the claim that the days are visited walking backward from the
reference date with the reference date written first. -/
theorem claim_C8_counterexample :
    ((generateSyntheticDatasetCsv twoDaySettings).rows.head?.map SynRow.date) =
      some (twoDaySettings.synthetic_reference_end_date - 1) ∧
    some (twoDaySettings.synthetic_reference_end_date - 1) ≠
      some twoDaySettings.synthetic_reference_end_date := by
  constructor
  · decide
  · decide

/-- C8 (amended): the generator visits the D days walking forward from
reference − (D−1) up to the reference date — the first data row written
carries reference − (D−1) and the last carries the reference date — with
rooms and then slots iterated inside each day, and the k-th data row
overall consumes the k-th pseudo-random draw, compared against the
weekday/weekend probability of its day: day k / (rooms×slots), room index
(k mod rooms×slots) / slots, slot index k mod slots. -/
theorem claim_C8_generationOrder (st : SettingsM) :
    (generateSyntheticDatasetCsv st).rows.length =
      st.synthetic_seed_days * rowsPerDay st ∧
    (∀ k, k < (generateSyntheticDatasetCsv st).rows.length →
      (generateSyntheticDatasetCsv st).rows.getD k dfltSynRow =
        { room_id :=
            (ROOM_CATALOG.getD (k % rowsPerDay st / st.synthetic_time_slots.length)
              (0, "", 0, "", "")).1,
          date := startDate st + (k / rowsPerDay st : Nat),
          time_slot :=
            st.synthetic_time_slots.getD (k % st.synthetic_time_slots.length) "",
          occupied :=
            if st.rand k <
                occupiedProbability st (startDate st + (k / rowsPerDay st : Nat)) then 1
            else 0 }) ∧
    (st.synthetic_seed_days ≠ 0 → st.synthetic_time_slots ≠ [] →
      ((generateSyntheticDatasetCsv st).rows.head?.map SynRow.date) =
        some (startDate st) ∧
      ((generateSyntheticDatasetCsv st).rows.getLast?.map SynRow.date) =
        some st.synthetic_reference_end_date) := by
  refine ⟨generateSynthetic_rows_length st, fun k hk => generateSynthetic_rows_getD st k hk, ?_⟩
  intro hD hS
  have hRpos : 0 < rowsPerDay st := by
    unfold rowsPerDay
    have : st.synthetic_time_slots.length ≠ 0 := by
      intro h0
      exact hS (List.length_eq_zero.mp h0)
    have h10 : ROOM_CATALOG.length = 10 := by decide
    rw [h10]
    omega
  have hlenpos : 0 < (generateSyntheticDatasetCsv st).rows.length := by
    rw [generateSynthetic_rows_length st]
    have : st.synthetic_seed_days ≠ 0 := hD
    exact Nat.mul_pos (by omega) hRpos
  constructor
  · have h0 := generateSynthetic_rows_getD st 0 hlenpos
    cases hrows : (generateSyntheticDatasetCsv st).rows with
    | nil => rw [hrows] at hlenpos; simp at hlenpos
    | cons r rest =>
      rw [hrows] at h0
      rw [List.getD_cons_zero] at h0
      rw [List.head?_cons, h0]
      simp [Nat.zero_div]
  · have hlast : (generateSyntheticDatasetCsv st).rows.getLast? =
        some ((generateSyntheticDatasetCsv st).rows.getD
          ((generateSyntheticDatasetCsv st).rows.length - 1) dfltSynRow) := by
      rw [List.getLast?_eq_getElem?,
        List.getElem?_eq_getElem (by omega),
        List.getD_eq_getElem _ _ (by omega)]
    rw [hlast]
    rw [generateSynthetic_rows_getD st _ (by omega)]
    have hdivlast : ((generateSyntheticDatasetCsv st).rows.length - 1) / rowsPerDay st =
        st.synthetic_seed_days - 1 := by
      rw [generateSynthetic_rows_length st]
      cases hDval : st.synthetic_seed_days with
      | zero => exact absurd hDval hD
      | succ d =>
        have hsm : (d + 1) * rowsPerDay st - 1 = (rowsPerDay st - 1) + d * rowsPerDay st := by
          have hmul : (d + 1) * rowsPerDay st = d * rowsPerDay st + rowsPerDay st := by
            ring
          omega
        rw [hsm, Nat.add_mul_div_right _ _ hRpos, Nat.div_eq_of_lt (by omega)]
        omega
    have hdate : startDate st + ((st.synthetic_seed_days - 1 : Nat) : Int) =
        st.synthetic_reference_end_date := by
      unfold startDate
      have : ((st.synthetic_seed_days - 1 : Nat) : Int) =
          (st.synthetic_seed_days : Int) - 1 := by
        have : st.synthetic_seed_days ≠ 0 := hD
        omega
      rw [this]
      ring
    simp only [Option.map_some']
    rw [hdivlast, hdate]

/-- C8 witness: the amended order facts at the two-day, one-slot
configuration: 20 rows, the first row is room 1, slot 09-11, on
reference − 1 (the start date), and the last row falls on the reference
date. -/
theorem claim_C8_witness :
    (0 < (generateSyntheticDatasetCsv twoDaySettings).rows.length ∧
      twoDaySettings.synthetic_seed_days ≠ 0 ∧
      twoDaySettings.synthetic_time_slots ≠ []) ∧
    (generateSyntheticDatasetCsv twoDaySettings).rows.length =
      twoDaySettings.synthetic_seed_days * rowsPerDay twoDaySettings ∧
    ((generateSyntheticDatasetCsv twoDaySettings).rows.head?.map SynRow.date) =
      some (startDate twoDaySettings) ∧
    ((generateSyntheticDatasetCsv twoDaySettings).rows.getLast?.map SynRow.date) =
      some twoDaySettings.synthetic_reference_end_date := by
  have h := claim_C8_generationOrder twoDaySettings
  have hlast := h.2.2 (by decide) (by decide)
  exact ⟨⟨by decide, by decide, by decide⟩, h.1, hlast.1, hlast.2⟩

/-! ## C3: the generated dataset content and catalog seeding -/

/-- Mapping only the payload of an enumerated list drops the indexes. -/
theorem enumFrom_map_snd {α β : Type} (g : α → β) :
    ∀ (n : Nat) (l : List α),
      (List.enumFrom n l).map (fun ke => g ke.2) = l.map g := by
  intro n l
  induction l generalizing n with
  | nil => rfl
  | cons a l ih =>
    simp only [List.enumFrom, List.map_cons]
    rw [ih]

/-- The keys of the generated data rows, day block by day block. -/
theorem generate_keys_eq (st : SettingsM) :
    (generateSyntheticDatasetCsv st).rows.map synKey =
      (List.range st.synthetic_seed_days).flatMap fun off =>
        ROOM_CATALOG.flatMap fun room =>
          st.synthetic_time_slots.map fun slot =>
            (room.1, startDate st + (off : Int), slot) := by
  unfold generateSyntheticDatasetCsv
  rw [List.map_map, List.enum_eq_enumFrom]
  have hpt : (synKey ∘ fun ke : Nat × (Nat × Int × String) =>
      ({ room_id := ke.2.2.1, date := startDate st + (ke.2.1 : Int),
         time_slot := ke.2.2.2,
         occupied :=
           if st.rand ke.1 <
               occupiedProbability st (startDate st + (ke.2.1 : Int)) then 1
           else 0 } : SynRow)) =
      fun ke => (fun e : Nat × Int × String =>
        (e.2.1, startDate st + (e.1 : Int), e.2.2)) ke.2 := by
    funext ke
    rfl
  rw [hpt, enumFrom_map_snd
    (fun e : Nat × Int × String => (e.2.1, startDate st + (e.1 : Int), e.2.2)) 0
    (genSchedule st)]
  unfold genSchedule
  simp only [List.map_flatMap, List.map_map]
  rfl

/-- A generated key decomposes into a catalog room, a day in the covered
range, and a configured slot. -/
theorem generate_keys_mem (st : SettingsM) (key : Int × Int × String) :
    key ∈ (generateSyntheticDatasetCsv st).rows.map synKey ↔
      key.1 ∈ catalogIds ∧
      startDate st ≤ key.2.1 ∧ key.2.1 ≤ st.synthetic_reference_end_date ∧
      key.2.2 ∈ st.synthetic_time_slots := by
  rw [generate_keys_eq]
  simp only [List.mem_flatMap, List.mem_range, List.mem_map]
  constructor
  · rintro ⟨off, hoff, room, hroom, slot, hslot, hkey⟩
    subst hkey
    refine ⟨List.mem_map.mpr ⟨room, hroom, rfl⟩, ?_, ?_, hslot⟩
    · show startDate st ≤ startDate st + (off : Int)
      omega
    · show startDate st + (off : Int) ≤ st.synthetic_reference_end_date
      unfold startDate
      omega
  · rintro ⟨hroomid, hlow, hhigh, hslot⟩
    obtain ⟨room, hroom, hrid⟩ := List.mem_map.mp hroomid
    refine ⟨(key.2.1 - startDate st).toNat, ?_, room, hroom, key.2.2, hslot, ?_⟩
    · have hstart : startDate st = st.synthetic_reference_end_date -
          ((st.synthetic_seed_days : Int) - 1) := rfl
      omega
    · have hsum : startDate st + ((key.2.1 - startDate st).toNat : Int) = key.2.1 := by
        omega
      rw [hrid, hsum]

/-- With a duplicate-free slot list, the generated keys are pairwise
distinct: one row per (room, day, slot) combination. -/
theorem generate_keys_nodup (st : SettingsM)
    (hS : st.synthetic_time_slots.Nodup) :
    ((generateSyntheticDatasetCsv st).rows.map synKey).Nodup := by
  rw [generate_keys_eq]
  rw [List.nodup_flatMap]
  constructor
  · intro off _
    rw [List.nodup_flatMap]
    constructor
    · intro room _
      refine List.Nodup.map ?_ hS
      intro a b hab
      have hsl := congrArg (fun k : Int × Int × String => k.2.2) hab
      simpa using hsl
    · have hcat : List.Pairwise (fun a b : Int × String × Nat × String × String =>
          a.1 ≠ b.1) ROOM_CATALOG := by decide
      refine hcat.imp_of_mem ?_
      intro r1 r2 _ _ hne
      intro x hx1 hx2
      rw [List.mem_map] at hx1 hx2
      obtain ⟨s1, _, he1⟩ := hx1
      obtain ⟨s2, _, he2⟩ := hx2
      apply hne
      rw [← he2] at he1
      injection he1
  · refine (List.pairwise_lt_range st.synthetic_seed_days).imp_of_mem ?_
    intro o1 o2 _ _ hlt
    intro x hx1 hx2
    simp only [List.mem_flatMap, List.mem_map] at hx1 hx2
    obtain ⟨r1, _, s1, _, he1⟩ := hx1
    obtain ⟨r2, _, s2, _, he2⟩ := hx2
    rw [← he2] at he1
    have hdates : startDate st + (o1 : Int) = startDate st + (o2 : Int) := by
      have := congrArg (fun k : Int × Int × String => k.2.1) he1
      simpa using this
    omega

/-- A successful catalog seed returns the ignore-on-conflict insert of the
catalog. -/
theorem seedRoomCatalog_ok (rooms rooms2 : List RoomRow)
    (h : seedRoomCatalog rooms = .ok rooms2) :
    rooms2 = insertOrIgnoreRooms rooms := by
  unfold seedRoomCatalog at h
  generalize hG : insertOrIgnoreRooms rooms = R at h ⊢
  cases hc : roomCatalogCheck R with
  | error e => rw [hc] at h; exact absurd h (by simp)
  | ok u =>
    rw [hc] at h
    have h2 : (Except.ok R : Except SeedErr (List RoomRow)) = Except.ok rooms2 := h
    exact (Except.ok.inj h2).symm

/-- A successful seed run installs exactly the ignore-on-conflict catalog
insert as the Rooms table. -/
theorem seed_ok_rooms (st : SettingsM) (s : DBState) (rep : SeedReport)
    (h : (seedSyntheticData st s).2 = .ok rep) :
    (seedSyntheticData st s).1.rooms = insertOrIgnoreRooms s.rooms := by
  unfold seedSyntheticData at h ⊢
  cases hv : validateSyntheticConfiguration st with
  | error e => rw [hv] at h; exact absurd h (by simp)
  | ok u =>
    rw [hv] at h
    cases hl : loadSyntheticRowsT st (ensureSyntheticDatasetExists st s.importFile) with
    | error e => rw [hl] at h; exact absurd h (by simp)
    | ok rows =>
      rw [hl] at h
      unfold seedInsertPhase at h ⊢
      cases hc : seedRoomCatalog
          { s with importFile := some (ensureSyntheticDatasetExists st s.importFile) }.rooms with
      | error e => rw [hc] at h; exact absurd h (by simp)
      | ok rooms2 =>
        show rooms2 = insertOrIgnoreRooms s.rooms
        exact seedRoomCatalog_ok s.rooms rooms2 hc

/-- A configuration whose slot list repeats the same slot: it passes
validation (the source never checks slots for distinctness). -/
def dupSlotSettings : SettingsM :=
  { sampleSettings with
      synthetic_seed_days := 1
      synthetic_time_slots := ["09-11", "09-11"] }

/-- C3 counterexample: a valid configuration whose slot list repeats a slot
yields two data rows for the same (room, day, slot) combination — refuting
the claim that every valid configuration produces exactly one row per
combination. -/
theorem claim_C3_counterexample :
    validateSyntheticConfiguration dupSlotSettings = Except.ok () ∧
    ((generateSyntheticDatasetCsv dupSlotSettings).rows.map synKey).count
      (1, dupSlotSettings.synthetic_reference_end_date, "09-11") = 2 := by
  constructor
  · decide
  · decide

/-- C3 (amended: the configured slot list must be duplicate-free): for every
configuration passing validation whose slot list has no duplicates, the
generated import file has header room_id, date, time_slot, occupied and
exactly 10 x D x |S| data rows; a (room, day, slot) key occurs among the
rows exactly when the room is a catalog room, the day lies in the D-day
window ending at the reference date, and the slot is configured; keys are
pairwise distinct (so exactly one row per combination); D = 21 and |S| = 4
give 840 rows; and a successful seed run on an empty Rooms table persists
exactly the ten catalog rooms with ids 1..10. -/
theorem claim_C3_generatedDataset (st : SettingsM)
    (hv : validateSyntheticConfiguration st = Except.ok ())
    (hS : st.synthetic_time_slots.Nodup) :
    (generateSyntheticDatasetCsv st).header = SYNTHETIC_COLUMNS ∧
    (generateSyntheticDatasetCsv st).rows.length =
      10 * st.synthetic_seed_days * st.synthetic_time_slots.length ∧
    (∀ key : Int × Int × String,
      key ∈ (generateSyntheticDatasetCsv st).rows.map synKey ↔
        (key.1 ∈ catalogIds ∧
          startDate st ≤ key.2.1 ∧ key.2.1 ≤ st.synthetic_reference_end_date ∧
          key.2.2 ∈ st.synthetic_time_slots)) ∧
    ((generateSyntheticDatasetCsv st).rows.map synKey).Nodup ∧
    (st.synthetic_seed_days = 21 → st.synthetic_time_slots.length = 4 →
      (generateSyntheticDatasetCsv st).rows.length = 840) ∧
    ∀ s : DBState, ∀ rep : SeedReport, s.rooms = [] →
      (seedSyntheticData st s).2 = Except.ok rep →
      roomIds (seedSyntheticData st s).1.rooms = catalogIds := by
  have hlen : (generateSyntheticDatasetCsv st).rows.length =
      10 * st.synthetic_seed_days * st.synthetic_time_slots.length := by
    rw [generateSynthetic_rows_length]
    unfold rowsPerDay
    have h10 : ROOM_CATALOG.length = 10 := rfl
    rw [h10]
    ring
  refine ⟨rfl, hlen, generate_keys_mem st, generate_keys_nodup st hS, ?_, ?_⟩
  · intro hD hSl
    rw [hlen, hD, hSl]
  · intro s rep hempty hok
    have hr := seed_ok_rooms st s rep hok
    rw [hr, hempty]
    decide

/-- C3 witness: the defaults (21 days, the four default slots) satisfy both
hypotheses and give 840 generated rows. -/
theorem claim_C3_witness :
    validateSyntheticConfiguration sampleSettings = Except.ok () ∧
    sampleSettings.synthetic_time_slots.Nodup ∧
    (generateSyntheticDatasetCsv sampleSettings).rows.length = 840 := by
  have h := claim_C3_generatedDataset sampleSettings (by decide) (by decide)
  exact ⟨by decide, by decide, h.2.2.2.2.1 rfl rfl⟩

/-! ## Idempotence of the seeding pipeline -/

/-- Appending one row appends its key. -/
theorem historyKeys_append (h : List (Nat × HistRow)) (x : Nat × HistRow) :
    historyKeys (h ++ [x]) = historyKeys h ++ [historyKey x.2] := by
  unfold historyKeys
  rw [List.map_append]
  rfl

/-- Keys already present in BookingHistory survive the bulk
ignore-on-conflict insert. -/
theorem insertOrIgnoreHistory_keys_mono (u : Bool) (rs : List SynRow) :
    ∀ (h : List (Nat × HistRow)) (n : Nat) (k : Int × Int × String),
      k ∈ historyKeys h → k ∈ historyKeys (insertOrIgnoreHistory u h n rs).1 := by
  induction rs with
  | nil => intro h n k hk; exact hk
  | cons a rs ih =>
    intro h n k hk
    simp only [insertOrIgnoreHistory]
    split
    · exact ih h n k hk
    · exact ih _ _ k (by rw [historyKeys_append]; exact List.mem_append_left _ hk)

/-- After the bulk ignore-on-conflict insert, every candidate key is present
in BookingHistory (it was either skipped because already present, or
appended). -/
theorem insertOrIgnoreHistory_keys_present (u : Bool) (rs : List SynRow) :
    ∀ (h : List (Nat × HistRow)) (n : Nat) (r : SynRow), r ∈ rs →
      historyKey (synToHistRow r) ∈
        historyKeys (insertOrIgnoreHistory u h n rs).1 := by
  induction rs with
  | nil => intro h n r hr; cases hr
  | cons a rs ih =>
    intro h n r hr
    simp only [insertOrIgnoreHistory]
    rcases List.mem_cons.mp hr with heq | htail
    · subst heq
      split
      · rename_i hc
        exact insertOrIgnoreHistory_keys_mono u rs h n _ hc.2
      · refine insertOrIgnoreHistory_keys_mono u rs _ _ _ ?_
        rw [historyKeys_append]
        exact List.mem_append_right _ (by simp)
    · split
      · exact ih h n r htail
      · exact ih _ _ r htail

/-- With the unique index in place, inserting candidates whose keys are all
already present changes nothing: no row is appended and no AUTOINCREMENT id
is consumed. -/
theorem insertOrIgnoreHistory_noop (rs : List SynRow) :
    ∀ (h : List (Nat × HistRow)) (n : Nat),
      (∀ r ∈ rs, historyKey (synToHistRow r) ∈ historyKeys h) →
      insertOrIgnoreHistory true h n rs = (h, n) := by
  induction rs with
  | nil => intro h n _; rfl
  | cons a rs ih =>
    intro h n hall
    simp only [insertOrIgnoreHistory]
    split
    · exact ih h n fun r hr => hall r (List.mem_cons_of_mem a hr)
    · rename_i hneg
      exact absurd ⟨trivial, hall a (List.mem_cons_self a rs)⟩ hneg

/-- The ignore-on-conflict catalog insert is a no-op when every catalog id
is already persisted. -/
theorem insertOrIgnoreRooms_eq_of_mem (rooms : List RoomRow)
    (hall : ∀ i ∈ catalogIds, i ∈ roomIds rooms) :
    insertOrIgnoreRooms rooms = rooms := by
  unfold insertOrIgnoreRooms
  have haux : ∀ (l : List (Int × String × Nat × String × String)),
      (∀ t ∈ l, t.1 ∈ roomIds rooms) →
      l.foldl (fun acc t => if t.1 ∈ roomIds acc then acc
        else acc ++ [catalogRoomRow t]) rooms = rooms := by
    intro l
    induction l with
    | nil => intro _; rfl
    | cons t l ih =>
      intro h
      rw [List.foldl_cons, if_pos (h t (List.mem_cons_self t l))]
      exact ih fun v hv => h v (List.mem_cons_of_mem t hv)
  exact haux ROOM_CATALOG fun t ht => hall t.1 (List.mem_map.mpr ⟨t, ht, rfl⟩)

/-- A passing integrity re-read means no catalog id is missing. -/
theorem roomCatalogCheck_ok (t : List RoomRow) (u : Unit)
    (h : roomCatalogCheck t = Except.ok u) : missingRoomIds t = [] := by
  unfold roomCatalogCheck at h
  by_cases hm : missingRoomIds t = []
  · exact hm
  · rw [if_pos hm] at h
    exact absurd h (by simp)

/-- A successful catalog seed means its integrity re-read found no missing
catalog id. -/
theorem seedRoomCatalog_ok_missing (rooms rooms2 : List RoomRow)
    (h : seedRoomCatalog rooms = Except.ok rooms2) :
    missingRoomIds rooms2 = [] := by
  have h2 := seedRoomCatalog_ok rooms rooms2 h
  unfold seedRoomCatalog at h
  generalize hG : insertOrIgnoreRooms rooms = R at h h2
  cases hc : roomCatalogCheck R with
  | error e => rw [hc] at h; exact absurd h (by simp)
  | ok u =>
    rw [h2]
    exact roomCatalogCheck_ok R u hc

/-- On a Rooms table already holding every catalog id, the catalog seed
succeeds and returns the table unchanged. -/
theorem seedRoomCatalog_fixed (rooms : List RoomRow)
    (hm : missingRoomIds rooms = []) :
    seedRoomCatalog rooms = Except.ok rooms := by
  have hall : ∀ i ∈ catalogIds, i ∈ roomIds rooms := by
    intro i hi
    by_contra hno
    have hmem : i ∈ missingRoomIds rooms := by
      rw [mem_missingRoomIds]
      refine ⟨hi, ?_⟩
      intro r hr hri
      exact hno (List.mem_map.mpr ⟨r, hr, hri⟩)
    rw [hm] at hmem
    exact absurd hmem (List.not_mem_nil i)
  have hins : insertOrIgnoreRooms rooms = rooms :=
    insertOrIgnoreRooms_eq_of_mem rooms hall
  unfold seedRoomCatalog roomCatalogCheck
  rw [hins, hm]
  rfl

/-- The state a successful seed run leaves behind: catalog-seeded Rooms,
the bulk-inserted history with its advanced AUTOINCREMENT counter, and the
ensured import file on disk. -/
def seededState (st : SettingsM) (s : DBState) (rows : List SynRow)
    (R : List RoomRow) : DBState :=
  { s with
      rooms := R,
      history := (insertOrIgnoreHistory s.bookingUniqueIndex s.history
        s.nextHistoryId rows).1,
      nextHistoryId := (insertOrIgnoreHistory s.bookingUniqueIndex s.history
        s.nextHistoryId rows).2,
      importFile := some (ensureSyntheticDatasetExists st s.importFile) }

/-- The report a successful seed run logs. -/
def seededReport (s : DBState) (rows : List SynRow) : SeedReport :=
  { candidates := rows.length,
    inserted := (insertOrIgnoreHistory s.bookingUniqueIndex s.history
      s.nextHistoryId rows).1.length - s.history.length,
    duplicates := rows.length -
      ((insertOrIgnoreHistory s.bookingUniqueIndex s.history
        s.nextHistoryId rows).1.length - s.history.length) }

/-- Normal form of a seed run whose three fallible steps succeed. -/
theorem seed_success_eq (st : SettingsM) (s : DBState) (rows : List SynRow)
    (R : List RoomRow)
    (hv : validateSyntheticConfiguration st = Except.ok ())
    (hl : loadSyntheticRowsT st (ensureSyntheticDatasetExists st s.importFile) =
      Except.ok rows)
    (hc : seedRoomCatalog s.rooms = Except.ok R) :
    seedSyntheticData st s =
      (seededState st s rows R, Except.ok (seededReport s rows)) := by
  unfold seedSyntheticData
  rw [hv, hl]
  unfold seedInsertPhase
  have hrooms :
      ({ s with importFile := some (ensureSyntheticDatasetExists st s.importFile) }
          : DBState).rooms = s.rooms := rfl
  rw [hrooms, hc]
  rfl

/-- A successful insert phase presupposes a successful catalog seed. -/
theorem seedInsertPhase_ok_inv (s1 : DBState) (rows : List SynRow)
    (rep : SeedReport) (h : (seedInsertPhase s1 rows).2 = Except.ok rep) :
    ∃ R, seedRoomCatalog s1.rooms = Except.ok R := by
  unfold seedInsertPhase at h
  cases hc : seedRoomCatalog s1.rooms with
  | error e => rw [hc] at h; exact absurd h (by simp)
  | ok R => exact ⟨R, rfl⟩

/-- Inversion of a successful seed run: each fallible step succeeded. -/
theorem seed_success_inv (st : SettingsM) (s : DBState) (rep : SeedReport)
    (h : (seedSyntheticData st s).2 = Except.ok rep) :
    validateSyntheticConfiguration st = Except.ok () ∧
    ∃ rows, loadSyntheticRowsT st (ensureSyntheticDatasetExists st s.importFile) =
      Except.ok rows ∧
    ∃ R, seedRoomCatalog s.rooms = Except.ok R := by
  unfold seedSyntheticData at h
  cases hv : validateSyntheticConfiguration st with
  | error e => rw [hv] at h; exact absurd h (by simp)
  | ok u =>
    rw [hv] at h
    cases hl : loadSyntheticRowsT st (ensureSyntheticDatasetExists st s.importFile) with
    | error e => rw [hl] at h; exact absurd h (by simp)
    | ok rows =>
      rw [hl] at h
      replace h : (seedInsertPhase
          { s with importFile := some (ensureSyntheticDatasetExists st s.importFile) }
          rows).2 = Except.ok rep := h
      obtain ⟨R, hcR⟩ := seedInsertPhase_ok_inv
        { s with importFile := some (ensureSyntheticDatasetExists st s.importFile) }
        rows rep h
      have hpr :
          ({ s with importFile := some (ensureSyntheticDatasetExists st s.importFile) }
            : DBState).rooms = s.rooms := rfl
      rw [hpr] at hcR
      cases u
      exact ⟨rfl, rows, rfl, R, hcR⟩

/-- A state that already carries the seeded Rooms table, all candidate
keys, and the import file is a fixed point of the post-load insert state. -/
theorem seededState_eq_self (st : SettingsM) (s2 : DBState)
    (rows : List SynRow) (R : List RoomRow)
    (hrooms : s2.rooms = R)
    (hins : insertOrIgnoreHistory s2.bookingUniqueIndex s2.history
      s2.nextHistoryId rows = (s2.history, s2.nextHistoryId))
    (hfile : s2.importFile = some (ensureSyntheticDatasetExists st s2.importFile)) :
    seededState st s2 rows R = s2 := by
  unfold seededState
  rw [hins, ← hrooms, ← hfile]

/-- When the bulk insert is a no-op, the logged report shows zero inserts
and every candidate a duplicate. -/
theorem seededReport_noop (s2 : DBState) (rows : List SynRow)
    (hins : insertOrIgnoreHistory s2.bookingUniqueIndex s2.history
      s2.nextHistoryId rows = (s2.history, s2.nextHistoryId)) :
    seededReport s2 rows =
      { candidates := rows.length, inserted := 0, duplicates := rows.length } := by
  unfold seededReport
  rw [hins]
  show ({ candidates := rows.length,
          inserted := s2.history.length - s2.history.length,
          duplicates := rows.length - (s2.history.length - s2.history.length) } :
        SeedReport) = _
  rw [Nat.sub_self, Nat.sub_zero]

/-- A second seed run on the state a successful run left behind (with the
unique index in place) succeeds, changes nothing, and reports zero inserts
with every candidate a duplicate. -/
theorem seed_second_run (st : SettingsM) (s : DBState) (rows : List SynRow)
    (R : List RoomRow)
    (hidx : s.bookingUniqueIndex = true)
    (hv : validateSyntheticConfiguration st = Except.ok ())
    (hc2 : seedRoomCatalog R = Except.ok R)
    (hl : loadSyntheticRowsT st (ensureSyntheticDatasetExists st s.importFile) =
      Except.ok rows) :
    seedSyntheticData st (seededState st s rows R) =
      (seededState st s rows R,
        Except.ok { candidates := rows.length, inserted := 0,
                    duplicates := rows.length }) := by
  have hl2 : loadSyntheticRowsT st
      (ensureSyntheticDatasetExists st (seededState st s rows R).importFile) =
      Except.ok rows := hl
  have hc2b : seedRoomCatalog (seededState st s rows R).rooms = Except.ok R := hc2
  rw [seed_success_eq st (seededState st s rows R) rows R hv hl2 hc2b]
  have hb : (seededState st s rows R).bookingUniqueIndex = true := hidx
  have hall : ∀ r ∈ rows,
      historyKey (synToHistRow r) ∈ historyKeys (seededState st s rows R).history :=
    fun r hr => insertOrIgnoreHistory_keys_present s.bookingUniqueIndex rows
      s.history s.nextHistoryId r hr
  have hnoop : insertOrIgnoreHistory (seededState st s rows R).bookingUniqueIndex
      (seededState st s rows R).history (seededState st s rows R).nextHistoryId rows =
      ((seededState st s rows R).history, (seededState st s rows R).nextHistoryId) := by
    rw [hb]
    exact insertOrIgnoreHistory_noop rows (seededState st s rows R).history
      (seededState st s rows R).nextHistoryId hall
  rw [Prod.mk.injEq]
  exact ⟨seededState_eq_self st (seededState st s rows R) rows R rfl hnoop rfl,
    congrArg Except.ok (seededReport_noop (seededState st s rows R) rows hnoop)⟩

/-- C1 (confirmed, under the startup invariant that initialize_database has
installed the unique BookingHistory index before any seeding runs): once a
seed run succeeds, running the pipeline again with the same configuration
succeeds, returns the state completely unchanged, inserts zero new
BookingHistory rows, reports every candidate row as a duplicate, and leaves
the import file and the history row count unchanged. -/
theorem claim_C1_seedIdempotent (st : SettingsM) (s : DBState) (rep1 : SeedReport)
    (hidx : s.bookingUniqueIndex = true)
    (h1 : (seedSyntheticData st s).2 = Except.ok rep1) :
    ∃ rep2 : SeedReport,
      (seedSyntheticData st (seedSyntheticData st s).1).2 = Except.ok rep2 ∧
      (seedSyntheticData st (seedSyntheticData st s).1).1 = (seedSyntheticData st s).1 ∧
      rep2.inserted = 0 ∧
      rep2.duplicates = rep2.candidates ∧
      (seedSyntheticData st (seedSyntheticData st s).1).1.history.length =
        (seedSyntheticData st s).1.history.length ∧
      (seedSyntheticData st (seedSyntheticData st s).1).1.importFile =
        (seedSyntheticData st s).1.importFile := by
  obtain ⟨hv, rows, hl, R, hcR⟩ := seed_success_inv st s rep1 h1
  have hm : missingRoomIds R = [] := seedRoomCatalog_ok_missing s.rooms R hcR
  have hc2 : seedRoomCatalog R = Except.ok R := seedRoomCatalog_fixed R hm
  have hS : (seedSyntheticData st s).1 = seededState st s rows R := by
    rw [seed_success_eq st s rows R hv hl hcR]
  rw [hS, seed_second_run st s rows R hidx hv hc2 hl]
  exact ⟨{ candidates := rows.length, inserted := 0, duplicates := rows.length },
    rfl, rfl, rfl, rfl, rfl, rfl⟩

/-- C1 witness: one seed run on a fresh store (unique index installed, one
day, one slot: ten candidate rows, all inserted) satisfies the hypotheses. -/
theorem claim_C1_witness :
    ({ emptyDB with bookingUniqueIndex := true } : DBState).bookingUniqueIndex = true ∧
    (seedSyntheticData tinySettings
      { emptyDB with bookingUniqueIndex := true }).2 =
      Except.ok { candidates := 10, inserted := 10, duplicates := 0 } ∧
    ∃ rep2 : SeedReport,
      (seedSyntheticData tinySettings
        (seedSyntheticData tinySettings
          { emptyDB with bookingUniqueIndex := true }).1).2 = Except.ok rep2 ∧
      (seedSyntheticData tinySettings
        (seedSyntheticData tinySettings
          { emptyDB with bookingUniqueIndex := true }).1).1 =
        (seedSyntheticData tinySettings
          { emptyDB with bookingUniqueIndex := true }).1 ∧
      rep2.inserted = 0 ∧
      rep2.duplicates = rep2.candidates ∧
      (seedSyntheticData tinySettings
        (seedSyntheticData tinySettings
          { emptyDB with bookingUniqueIndex := true }).1).1.history.length =
        (seedSyntheticData tinySettings
          { emptyDB with bookingUniqueIndex := true }).1.history.length ∧
      (seedSyntheticData tinySettings
        (seedSyntheticData tinySettings
          { emptyDB with bookingUniqueIndex := true }).1).1.importFile =
        (seedSyntheticData tinySettings
          { emptyDB with bookingUniqueIndex := true }).1.importFile :=
  ⟨rfl, by decide,
    claim_C1_seedIdempotent tinySettings { emptyDB with bookingUniqueIndex := true }
      { candidates := 10, inserted := 10, duplicates := 0 } rfl (by decide)⟩

end SpaceUtil
